import Mathlib

/-!
Shallow embedding of the authoritative game engine of the mundo-cleaver
socket server (source file gameEngine.js, class GameEngine) together with
its lag-compensation buffer (source file PositionHistory.js, class
PositionHistory).

Conventions of the embedding:

* JS Map objects are association lists of type List (Nat × a) kept in
  insertion order, which is the JS Map iteration order; socket ids and
  knife ids are natural numbers (a knife id stands for the numeric part
  of the source's room-n identifier string).
* Coordinates and speeds are exact rationals; wall-clock timestamps are
  integer milliseconds as produced by Date.now().
* Math.sqrt appears in the source in two roles.  Where the source only
  compares a square root against a non-negative bound, the embedding
  compares the squares, which is exactly equivalent over the reals
  because both sides are non-negative there.  Where the source uses the
  value of the square root itself (normalising a direction vector), the
  embedding takes the square-root function as an explicit parameter
  sqrtQ, and the theorems constrain sqrtQ at the arguments that matter,
  since an exact square root does not exist inside the rationals.
* Every io.emit call of the source becomes an element of an explicit
  event list returned by the corresponding operation, in emission order.
-/

/-- Game mode of a room: the source distinguishes the strings 1v1 and
3v3, any other string falling into a default branch. -/
inductive GameMode
  | oneVone
  | threeVthree
  | other
deriving DecidableEq, Repr

/-- State of the host-pressure controller (field degradeState of the
engine, source values are the strings normal and degraded). -/
inductive DegradeState
  | normal
  | degraded
deriving DecidableEq, Repr

/-- Player record as created by GameEngine.addPlayer. -/
structure Player where
  socketId : Nat
  playerId : Nat
  team : ℤ
  health : ℤ
  x : ℚ
  z : ℚ
  targetX : ℚ
  targetZ : ℚ
  isMoving : Bool
  isDead : Bool
  lastKnifeTime : ℤ
  lastProcessedSeq : Nat
deriving DecidableEq, Repr

/-- Knife (projectile) record as created by GameEngine.handleKnifeThrow.
prevX and prevZ are absent (undefined in the source) until the first
updateKnives tick moves the knife. -/
structure Knife where
  knifeId : Nat
  ownerSocketId : Nat
  ownerTeam : ℤ
  x : ℚ
  z : ℚ
  prevX : Option ℚ
  prevZ : Option ℚ
  velocityX : ℚ
  velocityZ : ℚ
  spawnTime : ℤ
  actionId : Nat
  hasHit : Bool
  clientTimestamp : ℤ
deriving DecidableEq, Repr

/-- Entry of a position-history snapshot: the tuple stored per player by
PositionHistory.recordSnapshot. -/
structure PosEntry where
  x : ℚ
  z : ℚ
  team : ℤ
  isDead : Bool
deriving DecidableEq, Repr

/-- One snapshot of the position-history ring buffer. -/
structure Snapshot where
  timestamp : ℤ
  positions : List (Nat × PosEntry)
deriving DecidableEq, Repr

/-- The PositionHistory ring buffer (class PositionHistory).  The buffer
field is the raw backing array in array order, not in ring order. -/
structure PositionHistory where
  bufferSize : Nat
  buffer : List Snapshot
  oldestIndex : Nat
  newestIndex : Nat
  count : Nat
deriving DecidableEq, Repr

/-- Player fields serialised by GameEngine.broadcastGameState. -/
structure PlayerView where
  playerId : Nat
  team : ℤ
  x : ℚ
  z : ℚ
  targetX : ℚ
  targetZ : ℚ
  isMoving : Bool
  isDead : Bool
  health : ℤ
  lastProcessedSeq : Nat
deriving DecidableEq, Repr

/-- Knife fields serialised by GameEngine.broadcastGameState. -/
structure KnifeView where
  knifeId : Nat
  ownerTeam : ℤ
  x : ℚ
  z : ℚ
  velocityX : ℚ
  velocityZ : ℚ
deriving DecidableEq, Repr

/-- The socket messages emitted by the engine, one constructor per
distinct io.emit event name, fields in the source's payload order. -/
inductive Event
  | knifeSpawn (knifeId : Nat) (ownerTeam : ℤ) (x z velocityX velocityZ : ℚ)
      (actionId : Nat) (serverTick : Nat) (serverTime : ℤ)
  | knifeDestroy (knifeId : Nat) (serverTick : Nat)
  | knifeHit (knifeId : Nat) (targetTeam : ℤ) (hitX hitZ : ℚ) (serverTick : Nat)
  | healthUpdate (targetPlayerId : Nat) (targetTeam : ℤ) (health : ℤ)
      (isDead : Bool) (serverTick : Nat) (serverTime : ℤ)
  | moveAck (actionId : Nat) (serverTick : Nat) (serverTime : ℤ)
      (x z targetX targetZ : ℚ)
  | gameState (serverTick : Nat) (serverTime : ℤ)
      (knives : List KnifeView) (players : List PlayerView)
  | gameOver (winningTeam : ℤ) (serverTick : Nat) (serverTime : ℤ)
deriving DecidableEq, Repr

/-- The per-room engine state: the mutable fields of class GameEngine
that the verified operations read or write.  tickRate is the source
field TICK_RATE; it is carried in the state so that the host-pressure
controller's non-interference with it can be stated. -/
structure GameState where
  roomCode : Nat
  gameMode : GameMode
  maxPlayers : Nat
  players : List (Nat × Player)
  knives : List (Nat × Knife)
  gameStarted : Bool
  serverTick : Nat
  nextKnifeId : Nat
  positionHistory : PositionHistory
  lagCompensationEnabled : Bool
  tickRate : Nat
  NETWORK_UPDATE_RATE : Nat
  tickIntervalNs : ℤ
  netIntervalNs : ℤ
  nextTickNs : ℤ
  nextNetNs : ℤ
  netCurrentRate : Nat
  degradeState : DegradeState
  overloadConsec : Nat
  recoverConsec : Nat
  loopRunning : Bool
deriving DecidableEq, Repr

/-- Lookup in a JS Map modelled as an association list (Map.get). -/
def alookup {α : Type} (k : Nat) : List (Nat × α) → Option α
  | [] => none
  | e :: rest => if e.1 = k then some e.2 else alookup k rest

/-- In-place update of an existing key of a JS Map: Map.set on a present
key replaces the value and keeps the entry's position. -/
def aupdate {α : Type} (k : Nat) (v : α) : List (Nat × α) → List (Nat × α)
  | [] => []
  | e :: rest => if e.1 = k then (e.1, v) :: rest else e :: aupdate k v rest

/-- Engine constant COLLISION_RADIUS. -/
def COLLISION_RADIUS : ℚ := 11.025

/-- Engine constant MAX_HEALTH. -/
def MAX_HEALTH : ℤ := 5

/-- Engine constant KNIFE_SPEED. -/
def KNIFE_SPEED : ℚ := 4.5864

/-- Engine constant KNIFE_COOLDOWN (milliseconds). -/
def KNIFE_COOLDOWN : ℤ := 4000

/-- Engine constant KNIFE_LIFETIME (milliseconds). -/
def KNIFE_LIFETIME : ℤ := 35000

/-- Engine constant PLAYER_SPEED (units per second). -/
def PLAYER_SPEED : ℚ := 23.4

/-- Local constant characterRadius of GameEngine.isWithinMapBounds. -/
def characterRadius : ℚ := 6

/-- GameEngine.isWithinMapBounds: admissibility of a move target,
including the central barrier keeping each team on its own side. -/
def isWithinMapBounds (x z : ℚ) (playerTeam : ℤ) : Bool :=
  if |x| < 18 then false
  else if playerTeam = 1 ∧ -18 < x then false
  else if playerTeam = 2 ∧ x < 18 then false
  else if 80 - characterRadius < |x| ∨ 68 < |z| then false
  else if 120 < |x| + |z| then false
  else true

/-- Return value of GameEngine.handlePlayerMove on acceptance. -/
structure MoveResult where
  x : ℚ
  z : ℚ
  targetX : ℚ
  targetZ : ℚ
  actionId : Nat
deriving DecidableEq, Repr

/-- GameEngine.handlePlayerMove: validate a movement request, set the
player's target and emit the reconciliation acknowledgment.  The source
guard actionId and io is truthy exactly when the action id is not the JS
falsy 0 (io is always provided by the caller). -/
def handlePlayerMove (now : ℤ) (sid : Nat) (targetX targetZ : ℚ)
    (actionId : Nat) (s : GameState) :
    GameState × List Event × Option MoveResult :=
  match alookup sid s.players with
  | none => (s, [], none)
  | some player =>
    if player.isDead then (s, [], none)
    else if ¬ isWithinMapBounds targetX targetZ player.team then (s, [], none)
    else
      let player' := { player with targetX := targetX, targetZ := targetZ,
                                   isMoving := true }
      let s' := { s with players := aupdate sid player' s.players }
      let events :=
        if actionId ≠ 0 then
          [Event.moveAck actionId s.serverTick now player.x player.z targetX targetZ]
        else []
      (s', events, some ⟨player.x, player.z, targetX, targetZ, actionId⟩)

/-- PositionHistory.recordSnapshot: copy all current player positions
into a fresh snapshot keyed by the current wall-clock time and insert it
into the ring (append while filling, overwrite the slot after the newest
once full). -/
def recordSnapshot (h : PositionHistory) (timestamp : ℤ)
    (players : List (Nat × Player)) : PositionHistory :=
  let positions := players.map (fun e => (e.1, PosEntry.mk e.2.x e.2.z e.2.team e.2.isDead))
  let snap : Snapshot := ⟨timestamp, positions⟩
  if h.count < h.bufferSize then
    { h with buffer := h.buffer ++ [snap], newestIndex := h.count,
             count := h.count + 1 }
  else
    let oi := (h.oldestIndex + 1) % h.bufferSize
    let ni := (h.newestIndex + 1) % h.bufferSize
    { h with oldestIndex := oi, newestIndex := ni,
             buffer := h.buffer.set ni snap }

/-- The scan loop of PositionHistory.getPositionsAt: over raw indices
0 .. count-1 keep the snapshot minimising timeDiff = target - timestamp
subject to timeDiff being non-negative, ties kept at the first hit
(strict comparison in the source).  The accumulator carries the best
snapshot with its timeDiff, none standing for bestTimeDiff Infinity. -/
def bestSnapshot (target : ℤ) (buffer : List Snapshot) (count : Nat) :
    Option (Snapshot × ℤ) :=
  (List.range count).foldl
    (fun acc i =>
      match buffer.get? i with
      | none => acc
      | some snap =>
        let timeDiff := target - snap.timestamp
        match acc with
        | none => if 0 ≤ timeDiff then some (snap, timeDiff) else none
        | some b =>
          if 0 ≤ timeDiff ∧ timeDiff < b.2 then some (snap, timeDiff) else some b)
    none

/-- PositionHistory.getPositionsAt: positions at the most recent
snapshot not after the target timestamp; if the target predates every
snapshot, the oldest snapshot; on an empty buffer, failure. -/
def getPositionsAt (h : PositionHistory) (target : ℤ) :
    Option (List (Nat × PosEntry)) :=
  if h.count = 0 then none
  else
    match bestSnapshot target h.buffer h.count with
    | some b => some b.1.positions
    | none =>
      match h.buffer.get? h.oldestIndex with
      | some snap => some snap.positions
      | none => none

/-- GameEngine.lineCircleIntersection: swept segment-versus-circle test.
The source compares sqrt expressions against non-negative bounds
(lineLength against 0.001 and the two distances against the radius,
11.025 at every call site); the embedding compares the squares, which is
equivalent over the reals.  The clamped parameter s below equals t over
lineLength of the source, so x1 + lx * s is the source's closest point. -/
def lineCircleIntersection (x1 z1 x2 z2 cx cz r : ℚ) : Bool :=
  let dx := cx - x1
  let dz := cz - z1
  let lx := x2 - x1
  let lz := z2 - z1
  let lenSq := lx * lx + lz * lz
  if lenSq < 1 / 1000000 then
    decide (dx * dx + dz * dz < r * r)
  else
    let s := max 0 (min 1 ((dx * lx + dz * lz) / lenSq))
    let closestX := x1 + lx * s
    let closestZ := z1 + lz * s
    let distX := cx - closestX
    let distZ := cz - closestZ
    decide (distX * distX + distZ * distZ < r * r)

/-- Lag-compensated target position used by the hit check of
GameEngine.checkKnifeCollisions for one enemy player: the historical
position at the knife's client timestamp when the lag is strictly
between 0 and 1000 ms and the history yields the player alive, otherwise
the current position.  A zero stored clientTimestamp is JS-falsy and is
replaced by now, as in the source. -/
def lagCompTarget (now : ℤ) (hist : PositionHistory) (lagEnabled : Bool)
    (knife : Knife) (sid : Nat) (p : Player) : ℚ × ℚ :=
  let clientTimestamp := if knife.clientTimestamp = 0 then now else knife.clientTimestamp
  let lagMs := now - clientTimestamp
  let shouldCompensate := 0 < lagMs ∧ lagMs < 1000
  if shouldCompensate ∧ lagEnabled then
    match getPositionsAt hist clientTimestamp with
    | some positions =>
      match alookup sid positions with
      | some hp => if ¬ hp.isDead then (hp.x, hp.z) else (p.x, p.z)
      | none => (p.x, p.z)
    | none => (p.x, p.z)
  else (p.x, p.z)

/-- The swept test of one knife against one candidate enemy player:
segment from the knife's previous position (its current one while prevX
is still undefined) to its current position, against the circle of
radius COLLISION_RADIUS at the lag-compensated target position. -/
def sweepHitTest (now : ℤ) (hist : PositionHistory) (lagEnabled : Bool)
    (knife : Knife) (sid : Nat) (p : Player) : Bool :=
  let prevX := knife.prevX.getD knife.x
  let prevZ := knife.prevZ.getD knife.z
  let t := lagCompTarget now hist lagEnabled knife sid p
  lineCircleIntersection prevX prevZ knife.x knife.z t.1 t.2 COLLISION_RADIUS

/-- The inner player loop of GameEngine.checkKnifeCollisions for one
knife: skip dead players and the owner's team; on the first collision
set hasHit, apply the clamped damage with the death transition, emit the
health update followed by the knife hit, and stop (the source breaks out
of the loop). -/
def knifeSweep (now : ℤ) (hist : PositionHistory) (lagEnabled : Bool)
    (serverTick : Nat) (kid : Nat) (knife : Knife) :
    List (Nat × Player) → List (Nat × Player) × Knife × List Event
  | [] => ([], knife, [])
  | (sid, p) :: rest =>
    if p.isDead then
      let r := knifeSweep now hist lagEnabled serverTick kid knife rest
      ((sid, p) :: r.1, r.2)
    else if p.team = knife.ownerTeam then
      let r := knifeSweep now hist lagEnabled serverTick kid knife rest
      ((sid, p) :: r.1, r.2)
    else if sweepHitTest now hist lagEnabled knife sid p then
      let newHealth := max 0 (p.health - 1)
      let newIsDead := if newHealth ≤ 0 ∧ ¬ p.isDead then true else p.isDead
      let p' := { p with health := newHealth, isDead := newIsDead }
      ((sid, p') :: rest, { knife with hasHit := true },
       [Event.healthUpdate p.playerId p.team newHealth newIsDead serverTick now,
        Event.knifeHit kid p.team knife.x knife.z serverTick])
    else
      let r := knifeSweep now hist lagEnabled serverTick kid knife rest
      ((sid, p) :: r.1, r.2)

/-- GameEngine.checkKnifeCollisions: run the sweep for every live knife
in map order, already-hit knives skipped, player mutations visible to
the later knives of the same tick. -/
def checkKnifeCollisions (now : ℤ) (s : GameState) : GameState × List Event :=
  let r := s.knives.foldl
    (fun acc e =>
      if e.2.hasHit then (acc.1, acc.2.1 ++ [e], acc.2.2)
      else
        let sw := knifeSweep now s.positionHistory s.lagCompensationEnabled
                    s.serverTick e.1 e.2 acc.1
        (sw.1, acc.2.1 ++ [(e.1, sw.2.1)], acc.2.2 ++ sw.2.2))
    (s.players, [], [])
  ({ s with players := r.1, knives := r.2.1 }, r.2.2)

/-- Advancing one live knife in GameEngine.updateKnives: save the
previous position and integrate the velocity over dt. -/
def advanceKnife (dt : ℚ) (k : Knife) : Knife :=
  { k with prevX := some k.x, prevZ := some k.z,
           x := k.x + k.velocityX * dt, z := k.z + k.velocityZ * dt }

/-- GameEngine.updateKnives: mark knives that have hit or outlived
KNIFE_LIFETIME for removal, advance the others, then delete the marked
ones emitting a destroy event each, in map order. -/
def updateKnives (dt : ℚ) (now : ℤ) (serverTick : Nat)
    (knives : List (Nat × Knife)) : List (Nat × Knife) × List Event :=
  let processed := knives.map
    (fun e =>
      if e.2.hasHit then (e.1, e.2, true)
      else if KNIFE_LIFETIME < now - e.2.spawnTime then (e.1, e.2, true)
      else (e.1, advanceKnife dt e.2, false))
  (processed.filterMap (fun t => if t.2.2 then none else some (t.1, t.2.1)),
   processed.filterMap
     (fun t => if t.2.2 then some (Event.knifeDestroy t.1 serverTick) else none))

/-- GameEngine.updatePlayerMovement: advance every living, moving player
toward its target.  The source branches on distance against 0.1 and
against the step length (both sides non-negative, compared here as
squares) and divides the direction by the distance in the remaining
case, where the square root is taken through sqrtQ. -/
def updatePlayerMovement (sqrtQ : ℚ → ℚ) (dt : ℚ)
    (players : List (Nat × Player)) : List (Nat × Player) :=
  players.map (fun e =>
    let p := e.2
    if ¬ p.isMoving ∨ p.isDead then e
    else
      let dx := p.targetX - p.x
      let dz := p.targetZ - p.z
      let distSq := dx * dx + dz * dz
      if distSq < 1 / 100 then
        (e.1, { p with x := p.targetX, z := p.targetZ, isMoving := false })
      else
        let moveDistance := PLAYER_SPEED * dt
        if distSq ≤ moveDistance * moveDistance then
          (e.1, { p with x := p.targetX, z := p.targetZ, isMoving := false })
        else
          let distance := sqrtQ distSq
          (e.1, { p with x := p.x + dx / distance * moveDistance,
                         z := p.z + dz / distance * moveDistance }))

/-- GameEngine.handleKnifeThrow: validate the throw (sender known,
alive, off cooldown, direction of positive length), create the knife,
store it, reset the thrower's cooldown origin to now and emit the spawn
event.  The knife id counter is incremented by the expression forming
the id string, before the direction check; length is the source's
Math.sqrt of the squared direction, taken through sqrtQ.  A zero
clientTimestamp argument is JS-falsy and is replaced by now. -/
def handleKnifeThrow (sqrtQ : ℚ → ℚ) (now : ℤ) (sid : Nat)
    (targetX targetZ : ℚ) (actionId : Nat) (clientTimestamp : ℤ)
    (s : GameState) : GameState × List Event × Option Knife :=
  match alookup sid s.players with
  | none => (s, [], none)
  | some player =>
    if player.isDead then (s, [], none)
    else if now - player.lastKnifeTime < KNIFE_COOLDOWN then (s, [], none)
    else
      let knifeId := s.nextKnifeId
      let s1 := { s with nextKnifeId := s.nextKnifeId + 1 }
      let directionX := targetX - player.x
      let directionZ := targetZ - player.z
      let length := sqrtQ (directionX * directionX + directionZ * directionZ)
      if length = 0 then (s1, [], none)
      else
        let normalizedDirX := directionX / length
        let normalizedDirZ := directionZ / length
        let knife : Knife :=
          { knifeId := knifeId, ownerSocketId := sid, ownerTeam := player.team,
            x := player.x, z := player.z, prevX := none, prevZ := none,
            velocityX := normalizedDirX * KNIFE_SPEED,
            velocityZ := normalizedDirZ * KNIFE_SPEED,
            spawnTime := now, actionId := actionId, hasHit := false,
            clientTimestamp := if clientTimestamp = 0 then now else clientTimestamp }
        let s2 := { s1 with
          knives := s1.knives ++ [(knifeId, knife)],
          players := aupdate sid { player with lastKnifeTime := now } s1.players }
        (s2,
         [Event.knifeSpawn knifeId player.team knife.x knife.z
            knife.velocityX knife.velocityZ actionId s.serverTick now],
         some knife)

/-- The distinct teams having at least one living player, in first
occurrence order: the key list of the teamAlive map that
GameEngine.checkGameOver builds. -/
def aliveTeams (players : List (Nat × Player)) : List ℤ :=
  players.foldl
    (fun acc e =>
      if e.2.isDead then acc
      else if e.2.team ∈ acc then acc
      else acc ++ [e.2.team])
    []

/-- GameEngine.checkGameOver: when exactly one team still has a living
player, emit the game-over event for it and stop the loop
(GameEngine.stopGameLoop clears loopRunning and gameStarted). -/
def checkGameOver (now : ℤ) (s : GameState) : GameState × List Event :=
  if ¬ s.gameStarted then (s, [])
  else
    match aliveTeams s.players with
    | [t] =>
      ({ s with loopRunning := false, gameStarted := false },
       [Event.gameOver t s.serverTick now])
    | _ => (s, [])

/-- GameEngine.broadcastGameState: the full room-state message, with the
already-hit knives filtered out. -/
def broadcastEvent (now : ℤ) (s : GameState) : Event :=
  Event.gameState s.serverTick now
    ((s.knives.filter (fun e => ¬ e.2.hasHit)).map
      (fun e => KnifeView.mk e.2.knifeId e.2.ownerTeam e.2.x e.2.z
                  e.2.velocityX e.2.velocityZ))
    (s.players.map
      (fun e => PlayerView.mk e.2.playerId e.2.team e.2.x e.2.z e.2.targetX
                  e.2.targetZ e.2.isMoving e.2.isDead e.2.health
                  e.2.lastProcessedSeq))

/-- One physics step of the while loop inside GameEngine.runPreciseLoop:
increment the server tick, integrate movement with the fixed dt, advance
the knives, run hit detection, run the end-of-game check.  No snapshot
is recorded into the position history here. -/
def preciseTickBody (sqrtQ : ℚ → ℚ) (now : ℤ) (s : GameState) :
    GameState × List Event :=
  let fixedDt : ℚ := 1 / (s.tickRate : ℚ)
  let s0 := { s with serverTick := s.serverTick + 1 }
  let s1 := { s0 with players := updatePlayerMovement sqrtQ fixedDt s0.players }
  let ku := updateKnives fixedDt now s1.serverTick s1.knives
  let s2 := { s1 with knives := ku.1 }
  let cc := checkKnifeCollisions now s2
  let go := checkGameOver now cc.1
  (go.1, ku.2 ++ cc.2 ++ go.2)

/-- Iterated physics steps: the catch-up while loop of
GameEngine.runPreciseLoop runs the tick body for every due physics
deadline (up to maxCatchUpTicks) without rechecking loopRunning. -/
def iterateTicks (sqrtQ : ℚ → ℚ) (now : ℤ) :
    Nat → GameState → GameState × List Event
  | 0, s => (s, [])
  | n + 1, s =>
    let r := preciseTickBody sqrtQ now s
    let r' := iterateTicks sqrtQ now n r.1
    (r'.1, r.2 ++ r'.2)

/-- Iterated broadcast steps: the broadcast while loop of
GameEngine.runPreciseLoop emits one full room-state message per due
broadcast deadline, without rechecking loopRunning. -/
def iterateBroadcasts (now : ℤ) : Nat → GameState → GameState × List Event
  | 0, s => (s, [])
  | n + 1, s =>
    let r := iterateBroadcasts now n s
    (r.1, broadcastEvent now s :: r.2)

/-- One invocation of GameEngine.runPreciseLoop: return immediately when
the loop has been stopped, otherwise run the due physics steps and then
the due broadcasts.  The hrtime deadline arithmetic deciding how many
steps of each kind are due is abstracted into the two step counts. -/
def runPreciseLoopIteration (sqrtQ : ℚ → ℚ) (now : ℤ)
    (tickSteps netSteps : Nat) (s : GameState) : GameState × List Event :=
  if ¬ s.loopRunning then (s, [])
  else
    let rt := iterateTicks sqrtQ now tickSteps s
    let rb := iterateBroadcasts now netSteps rt.1
    (rb.1, rt.2 ++ rb.2)

/-- One tick of GameEngine.tickStandard (dead code: nothing in the
repository calls it): like the precise tick body, but it records a
position-history snapshot after hit detection when lag compensation is
enabled, broadcasts on the serverTick modulus schedule, and runs the
end-of-game check last. -/
def tickStandardBody (sqrtQ : ℚ → ℚ) (now : ℤ) (s : GameState) :
    GameState × List Event :=
  let fixedDt : ℚ := 1 / (s.tickRate : ℚ)
  let s0 := { s with serverTick := s.serverTick + 1 }
  let s1 := { s0 with players := updatePlayerMovement sqrtQ fixedDt s0.players }
  let ku := updateKnives fixedDt now s1.serverTick s1.knives
  let s2 := { s1 with knives := ku.1 }
  let cc := checkKnifeCollisions now s2
  let s3 :=
    if cc.1.lagCompensationEnabled then
      { cc.1 with positionHistory := recordSnapshot cc.1.positionHistory now cc.1.players }
    else cc.1
  let due := s3.serverTick % (s3.tickRate / s3.NETWORK_UPDATE_RATE) = 0
  let bevs := if due then [broadcastEvent now s3] else []
  let go := checkGameOver now s3
  (go.1, ku.2 ++ cc.2 ++ bevs ++ go.2)

/-- Sample of the process-wide event-loop monitor read by the
host-pressure controller: p95 delay in milliseconds and the event-loop
utilization fraction. -/
structure ElSample where
  p95 : ℚ
  elu : ℚ
deriving DecidableEq, Repr

/-- The overload predicate of the controller: p95 above 8 ms or
utilization above 0.90. -/
def overloadSample (el : ElSample) : Bool :=
  decide (8 < el.p95) || decide (9 / 10 < el.elu)

/-- The recover predicate of the controller: p95 below 6 ms and
utilization below 0.70. -/
def recoverSample (el : ElSample) : Bool :=
  decide (el.p95 < 6) && decide (el.elu < 7 / 10)

/-- The host-pressure controller block executed every five seconds
inside GameEngine.runPreciseLoop: hysteresis between normal and
degraded, mutating only the broadcast rate, its interval and its next
deadline.  nowNs is the process.hrtime.bigint() value read when a
transition resets the broadcast deadline. -/
def controllerStep (nowNs : ℤ) (el : ElSample) (s : GameState) : GameState :=
  if overloadSample el then
    let s1 := { s with overloadConsec := s.overloadConsec + 1, recoverConsec := 0 }
    if s1.degradeState = DegradeState.normal ∧ 3 ≤ s1.overloadConsec then
      let s2 := { s1 with degradeState := DegradeState.degraded }
      if s2.netCurrentRate ≠ 30 then
        { s2 with netCurrentRate := 30, NETWORK_UPDATE_RATE := 30,
                  netIntervalNs := 1000000000 / 30,
                  nextNetNs := nowNs + 1000000000 / 30 }
      else s2
    else s1
  else if recoverSample el then
    let s1 := { s with recoverConsec := s.recoverConsec + 1, overloadConsec := 0 }
    if s1.degradeState = DegradeState.degraded ∧ 5 ≤ s1.recoverConsec then
      let s2 := { s1 with degradeState := DegradeState.normal }
      if s2.netCurrentRate ≠ 60 then
        { s2 with netCurrentRate := 60, NETWORK_UPDATE_RATE := 60,
                  netIntervalNs := 1000000000 / 60,
                  nextNetNs := nowNs + 1000000000 / 60 }
      else s2
    else s1
  else
    { s with overloadConsec := 0, recoverConsec := 0 }

/-- The GameEngine constructor: the initial per-room state.  The
physics rate TICK_RATE is 125 and the broadcast rate
NETWORK_UPDATE_RATE is 25, while the controller's rate guard
netCurrentRate starts at 60. -/
def initialEngineState (roomCode : Nat) (gameMode : GameMode) : GameState :=
  { roomCode := roomCode
    gameMode := gameMode
    maxPlayers := if gameMode = GameMode.oneVone then 2 else 6
    players := []
    knives := []
    gameStarted := false
    serverTick := 0
    nextKnifeId := 1
    positionHistory := ⟨120, [], 0, 0, 0⟩
    lagCompensationEnabled := true
    tickRate := 125
    NETWORK_UPDATE_RATE := 25
    tickIntervalNs := 1000000000 / 125
    netIntervalNs := 1000000000 / 25
    nextTickNs := 0
    nextNetNs := 0
    netCurrentRate := 60
    degradeState := DegradeState.normal
    overloadConsec := 0
    recoverConsec := 0
    loopRunning := false }

/-- GameEngine.addPlayer: insert a fresh player record at full health at
the origin. -/
def addPlayer (sid playerId : Nat) (team : ℤ) (s : GameState) : GameState :=
  { s with players := s.players ++
      [(sid, { socketId := sid, playerId := playerId, team := team,
               health := MAX_HEALTH, x := 0, z := 0, targetX := 0, targetZ := 0,
               isMoving := false, isDead := false, lastKnifeTime := 0,
               lastProcessedSeq := 0 })] }

/-- The first living player of the requested team, as located by the
lookup loop of GameEngine.handleCollisionReport. -/
def findTargetOnTeam (team : ℤ) : List (Nat × Player) → Option (Nat × Player)
  | [] => none
  | e :: rest =>
    if e.2.team = team ∧ ¬ e.2.isDead then some e else findTargetOnTeam team rest

/-- GameEngine.handleCollisionReport: the client-assisted damage path;
validates the attacker and target teams and applies the same clamped
decrement and death transition as the authoritative path. -/
def handleCollisionReport (now : ℤ) (attackerSid : Nat) (targetTeam : ℤ)
    (s : GameState) : GameState × List Event :=
  match alookup attackerSid s.players with
  | none => (s, [])
  | some attacker =>
    match findTargetOnTeam targetTeam s.players with
    | none => (s, [])
    | some (tsid, target) =>
      if attacker.team = target.team then (s, [])
      else
        let newHealth := max 0 (target.health - 1)
        let newIsDead := if newHealth ≤ 0 ∧ ¬ target.isDead then true else target.isDead
        let target' := { target with health := newHealth, isDead := newIsDead }
        ({ s with players := aupdate tsid target' s.players },
         [Event.healthUpdate target.playerId target.team newHealth newIsDead
            s.serverTick now])

/-- The bounds test unfolded into the conjunction of its admissibility
conditions, all of them non-strict. -/
theorem isWithinMapBounds_iff (x z : ℚ) (team : ℤ) :
    isWithinMapBounds x z team = true ↔
      (18 ≤ |x| ∧ (team = 1 → x ≤ -18) ∧ (team = 2 → 18 ≤ x) ∧
       |x| ≤ 80 - characterRadius ∧ |z| ≤ 68 ∧ |x| + |z| ≤ 120) := by
  unfold isWithinMapBounds
  split_ifs with h1 h2 h3 h4 h5
  · simp only [Bool.false_eq_true, false_iff]
    intro hP
    linarith [hP.1]
  · simp only [Bool.false_eq_true, false_iff]
    intro hP
    have := hP.2.1 h2.1
    linarith [h2.2]
  · simp only [Bool.false_eq_true, false_iff]
    intro hP
    have := hP.2.2.1 h3.1
    linarith [h3.2]
  · simp only [Bool.false_eq_true, false_iff]
    intro hP
    rcases h4 with h4 | h4
    · linarith [hP.2.2.2.1]
    · linarith [hP.2.2.2.2.1]
  · simp only [Bool.false_eq_true, false_iff]
    intro hP
    linarith [hP.2.2.2.2.2]
  · simp only [true_iff]
    push_neg at h1 h4 h5
    refine ⟨h1, ?_, ?_, h4.1, h4.2, h5⟩
    · intro ht
      by_contra hx
      exact h2 ⟨ht, by linarith [not_le.mp hx]⟩
    · intro ht
      by_contra hx
      exact h3 ⟨ht, by linarith [not_le.mp hx]⟩

/-- C4: for a known, living player, handlePlayerMove accepts a move
target (x, z) if and only if all of the admissibility conditions hold
(central strip, team containment, outer bounds with the character
radius, corner cut); a rejected move leaves the state unchanged and
emits nothing, an accepted move sets the target, marks the player
moving and emits the movement acknowledgment. -/
theorem c4_move_admissibility (now : ℤ) (sid : Nat) (tX tZ : ℚ)
    (aId : Nat) (s : GameState) (p : Player)
    (hp : alookup sid s.players = some p) (halive : p.isDead = false)
    (haid : aId ≠ 0) :
    (isWithinMapBounds tX tZ p.team = true ↔
      (18 ≤ |tX| ∧ (p.team = 1 → tX ≤ -18) ∧ (p.team = 2 → 18 ≤ tX) ∧
       |tX| ≤ 80 - characterRadius ∧ |tZ| ≤ 68 ∧ |tX| + |tZ| ≤ 120))
    ∧ ((handlePlayerMove now sid tX tZ aId s).2.2.isSome = true ↔
        isWithinMapBounds tX tZ p.team = true)
    ∧ (isWithinMapBounds tX tZ p.team = false →
        handlePlayerMove now sid tX tZ aId s = (s, [], none))
    ∧ (isWithinMapBounds tX tZ p.team = true →
        handlePlayerMove now sid tX tZ aId s =
          ({ s with players :=
               (aupdate sid { p with targetX := tX, targetZ := tZ, isMoving := true }
                 s.players) },
           [Event.moveAck aId s.serverTick now p.x p.z tX tZ],
           some ⟨p.x, p.z, tX, tZ, aId⟩)) := by
  refine ⟨isWithinMapBounds_iff tX tZ p.team, ?_, ?_, ?_⟩
  · unfold handlePlayerMove
    rw [hp]
    simp only [halive, Bool.false_eq_true, if_false]
    cases hb : isWithinMapBounds tX tZ p.team with
    | false => simp [hb]
    | true => simp [hb]
  · intro hb
    unfold handlePlayerMove
    rw [hp]
    simp [halive, hb]
  · intro hb
    unfold handlePlayerMove
    rw [hp]
    simp [halive, hb, haid]

/-- A concrete sample player on team 2 as produced by addPlayer, used
by the concrete instantiations below. -/
def samplePlayer : Player :=
  { socketId := 1, playerId := 5, team := 2, health := MAX_HEALTH,
    x := 0, z := 0, targetX := 0, targetZ := 0, isMoving := false,
    isDead := false, lastKnifeTime := 0, lastProcessedSeq := 0 }

/-- A concrete room holding samplePlayer. -/
def sampleState : GameState := addPlayer 1 5 2 (initialEngineState 3 GameMode.oneVone)

/-- Witness for c4_move_admissibility: a concrete accepted move for a
living team-2 player. -/
theorem c4_move_admissibility_witness :
    (alookup 1 sampleState.players = some samplePlayer ∧
     samplePlayer.isDead = false ∧ (7 : Nat) ≠ 0) ∧
    (handlePlayerMove 1000 1 30 10 7 sampleState).2.2.isSome = true := by
  refine ⟨⟨rfl, rfl, by norm_num⟩, ?_⟩
  exact ((c4_move_admissibility 1000 1 30 10 7 sampleState samplePlayer rfl rfl
    (by norm_num)).2.1).mpr (by norm_num [isWithinMapBounds, characterRadius, samplePlayer])

/-- C5 counterexample: both boundary points that the claim says are
rejected are in fact accepted by isWithinMapBounds: a team-2 target
with x exactly 18 in absolute value (the no-go boundary), and a team-2
target (74, 46) whose corner distance is exactly 120. -/
theorem c5_counterexample :
    isWithinMapBounds 18 0 2 = true ∧ (|(18 : ℚ)| = 18) ∧
    isWithinMapBounds 74 46 2 = true ∧ (|(74 : ℚ)| + |(46 : ℚ)| = 120) := by
  refine ⟨?_, by norm_num, ?_, by norm_num⟩ <;>
    norm_num [isWithinMapBounds, characterRadius]

/-- C5 amended: a move target on the no-go boundary with x exactly 18
in absolute value is accepted (as is one slightly beyond it), and a
target whose corner distance is exactly 120 is accepted (as is any
smaller one), the other bounds being satisfied; only a corner distance
strictly above 120 is rejected. -/
theorem c5_boundary_amended (x z : ℚ) (team : ℤ)
    (ht1 : team = 1 → x ≤ -18) (ht2 : team = 2 → 18 ≤ x)
    (hx : 18 ≤ |x|) (hxo : |x| ≤ 80 - characterRadius) (hzo : |z| ≤ 68) :
    (|x| + |z| ≤ 120 → isWithinMapBounds x z team = true)
    ∧ (120 < |x| + |z| → isWithinMapBounds x z team = false) := by
  constructor
  · intro hc
    exact (isWithinMapBounds_iff x z team).mpr ⟨hx, ht1, ht2, hxo, hzo, hc⟩
  · intro hc
    cases hb : isWithinMapBounds x z team with
    | false => rfl
    | true =>
      have := ((isWithinMapBounds_iff x z team).mp hb).2.2.2.2.2
      linarith

/-- Witness for c5_boundary_amended at the boundary point (18, 0) for
team 2: every hypothesis holds and the point is accepted. -/
theorem c5_boundary_amended_witness :
    (((2 : ℤ) = 1 → (18 : ℚ) ≤ -18) ∧ ((2 : ℤ) = 2 → (18 : ℚ) ≤ 18) ∧
     18 ≤ |(18 : ℚ)| ∧ |(18 : ℚ)| ≤ 80 - characterRadius ∧ |(0 : ℚ)| ≤ 68) ∧
    isWithinMapBounds 18 0 2 = true := by
  refine ⟨⟨by norm_num, by norm_num, by norm_num, by norm_num [characterRadius],
    by norm_num⟩, ?_⟩
  exact (c5_boundary_amended 18 0 2 (by norm_num) (by norm_num) (by norm_num)
    (by norm_num [characterRadius]) (by norm_num)).1 (by norm_num)

/-- The knife record built by an accepted handleKnifeThrow call. -/
def thrownKnife (sqrtQ : ℚ → ℚ) (now : ℤ) (sid : Nat) (tX tZ : ℚ)
    (aId : Nat) (cts : ℤ) (s : GameState) (p : Player) : Knife :=
  { knifeId := s.nextKnifeId, ownerSocketId := sid, ownerTeam := p.team,
    x := p.x, z := p.z, prevX := none, prevZ := none,
    velocityX := (tX - p.x) /
      sqrtQ ((tX - p.x) * (tX - p.x) + (tZ - p.z) * (tZ - p.z)) * KNIFE_SPEED,
    velocityZ := (tZ - p.z) /
      sqrtQ ((tX - p.x) * (tX - p.x) + (tZ - p.z) * (tZ - p.z)) * KNIFE_SPEED,
    spawnTime := now, actionId := aId, hasHit := false,
    clientTimestamp := if cts = 0 then now else cts }

/-- handleKnifeThrow on an unknown sender: full rejection. -/
theorem hkt_unknown (sqrtQ : ℚ → ℚ) (now : ℤ) (sid : Nat) (tX tZ : ℚ)
    (aId : Nat) (cts : ℤ) (s : GameState)
    (h : alookup sid s.players = none) :
    handleKnifeThrow sqrtQ now sid tX tZ aId cts s = (s, [], none) := by
  unfold handleKnifeThrow
  rw [h]

/-- handleKnifeThrow on a dead sender: full rejection. -/
theorem hkt_dead (sqrtQ : ℚ → ℚ) (now : ℤ) (sid : Nat) (tX tZ : ℚ)
    (aId : Nat) (cts : ℤ) (s : GameState) (p : Player)
    (h : alookup sid s.players = some p) (hd : p.isDead = true) :
    handleKnifeThrow sqrtQ now sid tX tZ aId cts s = (s, [], none) := by
  unfold handleKnifeThrow
  rw [h]
  simp [hd]

/-- handleKnifeThrow during the cooldown window: full rejection. -/
theorem hkt_cooldown (sqrtQ : ℚ → ℚ) (now : ℤ) (sid : Nat) (tX tZ : ℚ)
    (aId : Nat) (cts : ℤ) (s : GameState) (p : Player)
    (h : alookup sid s.players = some p) (hd : p.isDead = false)
    (hc : now - p.lastKnifeTime < KNIFE_COOLDOWN) :
    handleKnifeThrow sqrtQ now sid tX tZ aId cts s = (s, [], none) := by
  unfold handleKnifeThrow
  rw [h]
  simp [hd, hc]

/-- handleKnifeThrow on a zero-length direction: rejection after the
knife-id counter has already been incremented. -/
theorem hkt_zerolen (sqrtQ : ℚ → ℚ) (now : ℤ) (sid : Nat) (tX tZ : ℚ)
    (aId : Nat) (cts : ℤ) (s : GameState) (p : Player)
    (h : alookup sid s.players = some p) (hd : p.isDead = false)
    (hc : ¬ now - p.lastKnifeTime < KNIFE_COOLDOWN)
    (hz : sqrtQ ((tX - p.x) * (tX - p.x) + (tZ - p.z) * (tZ - p.z)) = 0) :
    handleKnifeThrow sqrtQ now sid tX tZ aId cts s =
      ({ s with nextKnifeId := s.nextKnifeId + 1 }, [], none) := by
  unfold handleKnifeThrow
  rw [h]
  simp [hd, hc, hz]

/-- handleKnifeThrow on a valid throw: the knife is stored and spawned. -/
theorem hkt_accept (sqrtQ : ℚ → ℚ) (now : ℤ) (sid : Nat) (tX tZ : ℚ)
    (aId : Nat) (cts : ℤ) (s : GameState) (p : Player)
    (h : alookup sid s.players = some p) (hd : p.isDead = false)
    (hc : ¬ now - p.lastKnifeTime < KNIFE_COOLDOWN)
    (hz : sqrtQ ((tX - p.x) * (tX - p.x) + (tZ - p.z) * (tZ - p.z)) ≠ 0) :
    handleKnifeThrow sqrtQ now sid tX tZ aId cts s =
      ({ s with
          nextKnifeId := s.nextKnifeId + 1,
          knives := (s.knives ++
            [(s.nextKnifeId, thrownKnife sqrtQ now sid tX tZ aId cts s p)]),
          players := (aupdate sid { p with lastKnifeTime := now } s.players) },
       [Event.knifeSpawn s.nextKnifeId p.team p.x p.z
          (thrownKnife sqrtQ now sid tX tZ aId cts s p).velocityX
          (thrownKnife sqrtQ now sid tX tZ aId cts s p).velocityZ
          aId s.serverTick now],
       some (thrownKnife sqrtQ now sid tX tZ aId cts s p)) := by
  unfold handleKnifeThrow thrownKnife
  rw [h]
  simp [hd, hc, hz]

/-- C6: handleKnifeThrow rejects exactly when the sender is unknown,
dead, on cooldown, or the direction from the thrower to the target has
zero length (under a square root that vanishes only at zero); an
accepted throw appends exactly one knife whose velocity is the
direction normalised by its length and scaled by KNIFE_SPEED, resets
the thrower's cooldown origin to now, and emits exactly the one spawn
event.  The last conjunct states that the velocity has norm
KNIFE_SPEED whenever len is an exact square root of the squared
direction length. -/
theorem c6_knife_throw_validation (sqrtQ : ℚ → ℚ) (now : ℤ) (sid : Nat)
    (tX tZ : ℚ) (aId : Nat) (cts : ℤ) (s : GameState)
    (hsq : ∀ q : ℚ, 0 ≤ q → (sqrtQ q = 0 ↔ q = 0)) :
    ((handleKnifeThrow sqrtQ now sid tX tZ aId cts s).2.2 = none ↔
      (alookup sid s.players = none ∨
       ∃ p, alookup sid s.players = some p ∧
         (p.isDead = true ∨ now - p.lastKnifeTime < KNIFE_COOLDOWN ∨
          (tX = p.x ∧ tZ = p.z))))
    ∧ (∀ p, alookup sid s.players = some p → p.isDead = false →
        ¬ now - p.lastKnifeTime < KNIFE_COOLDOWN →
        ¬ (tX = p.x ∧ tZ = p.z) →
        handleKnifeThrow sqrtQ now sid tX tZ aId cts s =
          ({ s with
              nextKnifeId := s.nextKnifeId + 1,
              knives := (s.knives ++
                [(s.nextKnifeId, thrownKnife sqrtQ now sid tX tZ aId cts s p)]),
              players := (aupdate sid { p with lastKnifeTime := now } s.players) },
           [Event.knifeSpawn s.nextKnifeId p.team p.x p.z
              (thrownKnife sqrtQ now sid tX tZ aId cts s p).velocityX
              (thrownKnife sqrtQ now sid tX tZ aId cts s p).velocityZ
              aId s.serverTick now],
           some (thrownKnife sqrtQ now sid tX tZ aId cts s p)))
    ∧ (∀ dx dz len : ℚ, len * len = dx * dx + dz * dz → len ≠ 0 →
        (dx / len * KNIFE_SPEED) * (dx / len * KNIFE_SPEED) +
          (dz / len * KNIFE_SPEED) * (dz / len * KNIFE_SPEED) =
          KNIFE_SPEED * KNIFE_SPEED) := by
  have hzero : ∀ p : Player,
      (sqrtQ ((tX - p.x) * (tX - p.x) + (tZ - p.z) * (tZ - p.z)) = 0 ↔
        (tX = p.x ∧ tZ = p.z)) := by
    intro p
    rw [hsq _ (add_nonneg (mul_self_nonneg _) (mul_self_nonneg _))]
    constructor
    · intro h
      have h1 := (add_eq_zero_iff_of_nonneg (mul_self_nonneg (tX - p.x))
        (mul_self_nonneg (tZ - p.z))).mp h
      exact ⟨sub_eq_zero.mp (mul_self_eq_zero.mp h1.1),
             sub_eq_zero.mp (mul_self_eq_zero.mp h1.2)⟩
    · rintro ⟨h1, h2⟩
      rw [h1, h2]
      simp
  refine ⟨?_, ?_, ?_⟩
  · constructor
    · intro hres
      cases hl : alookup sid s.players with
      | none => exact Or.inl rfl
      | some p =>
        refine Or.inr ⟨p, rfl, ?_⟩
        cases hd : p.isDead with
        | true => exact Or.inl rfl
        | false =>
          by_cases hc : now - p.lastKnifeTime < KNIFE_COOLDOWN
          · exact Or.inr (Or.inl hc)
          · refine Or.inr (Or.inr ((hzero p).mp ?_))
            by_contra hz
            rw [hkt_accept sqrtQ now sid tX tZ aId cts s p hl hd hc hz] at hres
            exact Option.some_ne_none _ hres
    · intro hcase
      rcases hcase with h | ⟨p, hp, hcase⟩
      · rw [hkt_unknown sqrtQ now sid tX tZ aId cts s h]
      · rcases hcase with h | h | h
        · rw [hkt_dead sqrtQ now sid tX tZ aId cts s p hp h]
        · cases hd : p.isDead with
          | true => rw [hkt_dead sqrtQ now sid tX tZ aId cts s p hp hd]
          | false => rw [hkt_cooldown sqrtQ now sid tX tZ aId cts s p hp hd h]
        · cases hd : p.isDead with
          | true => rw [hkt_dead sqrtQ now sid tX tZ aId cts s p hp hd]
          | false =>
            by_cases hc : now - p.lastKnifeTime < KNIFE_COOLDOWN
            · rw [hkt_cooldown sqrtQ now sid tX tZ aId cts s p hp hd hc]
            · rw [hkt_zerolen sqrtQ now sid tX tZ aId cts s p hp hd hc
                ((hzero p).mpr h)]
  · intro p hp hd hc hz
    exact hkt_accept sqrtQ now sid tX tZ aId cts s p hp hd hc
      (fun h => hz ((hzero p).mp h))
  · intro dx dz len hlen hne
    field_simp
    nlinarith [hlen]

/-- A concrete square-root stand-in vanishing exactly at zero, for the
concrete instantiations below. -/
def sampleSqrt : ℚ → ℚ := fun q => if q = 0 then 0 else 1

/-- sampleSqrt vanishes exactly at zero. -/
theorem sampleSqrt_zero_iff : ∀ q : ℚ, 0 ≤ q → (sampleSqrt q = 0 ↔ q = 0) := by
  intro q _
  unfold sampleSqrt
  by_cases h : q = 0
  · simp [h]
  · simp [h]

/-- Witness for c6_knife_throw_validation: a concrete valid throw by
the sample player. -/
theorem c6_knife_throw_validation_witness :
    (∀ q : ℚ, 0 ≤ q → (sampleSqrt q = 0 ↔ q = 0)) ∧
    ((handleKnifeThrow sampleSqrt 5000 1 30 10 7 4900 sampleState).2.2 = none ↔
      (alookup 1 sampleState.players = none ∨
       ∃ p, alookup 1 sampleState.players = some p ∧
         (p.isDead = true ∨ 5000 - p.lastKnifeTime < KNIFE_COOLDOWN ∨
          ((30 : ℚ) = p.x ∧ (10 : ℚ) = p.z)))) :=
  ⟨sampleSqrt_zero_iff,
   (c6_knife_throw_validation sampleSqrt 5000 1 30 10 7 4900 sampleState
     sampleSqrt_zero_iff).1⟩

/-- C10: a throw by a known, living, off-cooldown sender that is
rejected only for its zero-length direction still increments the
room's knife-id counter, while leaving the knife table, the thrower's
cooldown time and every other piece of player state unchanged, so
knife ids are strictly increasing but not necessarily consecutive. -/
theorem c10_rejected_throw_increments_id (sqrtQ : ℚ → ℚ) (now : ℤ)
    (sid aId : Nat) (cts : ℤ) (s : GameState) (p : Player)
    (hp : alookup sid s.players = some p) (hd : p.isDead = false)
    (hc : ¬ now - p.lastKnifeTime < KNIFE_COOLDOWN)
    (hsq0 : sqrtQ 0 = 0) :
    handleKnifeThrow sqrtQ now sid p.x p.z aId cts s =
      ({ s with nextKnifeId := s.nextKnifeId + 1 }, [], none)
    ∧ ({ s with nextKnifeId := s.nextKnifeId + 1 } : GameState).knives = s.knives
    ∧ ({ s with nextKnifeId := s.nextKnifeId + 1 } : GameState).players = s.players
    ∧ s.nextKnifeId < s.nextKnifeId + 1 := by
  have hz : sqrtQ ((p.x - p.x) * (p.x - p.x) + (p.z - p.z) * (p.z - p.z)) = 0 := by
    rw [sub_self, sub_self]
    simpa using hsq0
  exact ⟨hkt_zerolen sqrtQ now sid p.x p.z aId cts s p hp hd hc hz,
         rfl, rfl, Nat.lt_succ_self _⟩

/-- Witness for c10_rejected_throw_increments_id: the sample player
throwing exactly at its own position. -/
theorem c10_rejected_throw_increments_id_witness :
    (alookup 1 sampleState.players = some samplePlayer ∧
     samplePlayer.isDead = false ∧
     ¬ (5000 : ℤ) - samplePlayer.lastKnifeTime < KNIFE_COOLDOWN ∧
     sampleSqrt 0 = 0) ∧
    handleKnifeThrow sampleSqrt 5000 1 samplePlayer.x samplePlayer.z 7 0 sampleState =
      ({ sampleState with nextKnifeId := sampleState.nextKnifeId + 1 }, [], none) := by
  have h1 : alookup 1 sampleState.players = some samplePlayer := rfl
  have h2 : samplePlayer.isDead = false := rfl
  have h3 : ¬ (5000 : ℤ) - samplePlayer.lastKnifeTime < KNIFE_COOLDOWN := by
    simp [samplePlayer, KNIFE_COOLDOWN]
  have h4 : sampleSqrt 0 = 0 := by simp [sampleSqrt]
  exact ⟨⟨h1, h2, h3, h4⟩,
    (c10_rejected_throw_increments_id sampleSqrt 5000 1 7 0 sampleState
      samplePlayer h1 h2 h3 h4).1⟩

/-- C2: during the per-tick hit check with lag compensation enabled and
a non-zero stored client timestamp, writing lagMs for now minus the
knife's clientTimestamp: with 0 < lagMs < 1000 and a history lookup at
clientTimestamp yielding the tested player alive, the swept test's
circle centre is the historical position; with lagMs equal to 0,
negative, or at least 1000, or with the historical entry missing or
dead, it is the current position; and a clientTimestamp beyond
now + 100 never yields a rewind. -/
theorem c2_lag_compensation_target (now : ℤ) (hist : PositionHistory)
    (knife : Knife) (sid : Nat) (p : Player)
    (hcts : knife.clientTimestamp ≠ 0) :
    ((0 : ℤ) < now - knife.clientTimestamp →
      now - knife.clientTimestamp < 1000 →
      ∀ positions hp, getPositionsAt hist knife.clientTimestamp = some positions →
        alookup sid positions = some hp → hp.isDead = false →
        lagCompTarget now hist true knife sid p = (hp.x, hp.z))
    ∧ (now - knife.clientTimestamp = 0 ∨ 1000 ≤ now - knife.clientTimestamp ∨
        now - knife.clientTimestamp < 0 →
        lagCompTarget now hist true knife sid p = (p.x, p.z))
    ∧ (getPositionsAt hist knife.clientTimestamp = none →
        lagCompTarget now hist true knife sid p = (p.x, p.z))
    ∧ (∀ positions, getPositionsAt hist knife.clientTimestamp = some positions →
        alookup sid positions = none →
        lagCompTarget now hist true knife sid p = (p.x, p.z))
    ∧ (∀ positions hp, getPositionsAt hist knife.clientTimestamp = some positions →
        alookup sid positions = some hp → hp.isDead = true →
        lagCompTarget now hist true knife sid p = (p.x, p.z))
    ∧ (now + 100 < knife.clientTimestamp →
        lagCompTarget now hist true knife sid p = (p.x, p.z)) := by
  refine ⟨?_, ?_, ?_, ?_, ?_, ?_⟩
  · intro h1 h2 positions hp hpos hlook hdead
    unfold lagCompTarget
    rw [if_neg hcts, if_pos ⟨⟨h1, h2⟩, rfl⟩]
    simp [hpos, hlook, hdead]
  · intro hcase
    unfold lagCompTarget
    rw [if_neg hcts, if_neg]
    rintro ⟨⟨ha, hb⟩, -⟩
    rcases hcase with h | h | h <;> omega
  · intro hnone
    unfold lagCompTarget
    rw [if_neg hcts]
    dsimp only
    split_ifs with hcomp
    · simp [hnone]
    · rfl
  · intro positions hpos hlook
    unfold lagCompTarget
    rw [if_neg hcts]
    dsimp only
    split_ifs with hcomp
    · simp [hpos, hlook]
    · rfl
  · intro positions hp hpos hlook hdead
    unfold lagCompTarget
    rw [if_neg hcts]
    dsimp only
    split_ifs with hcomp
    · simp [hpos, hlook, hdead]
    · rfl
  · intro hfuture
    unfold lagCompTarget
    rw [if_neg hcts, if_neg]
    rintro ⟨⟨ha, hb⟩, -⟩
    omega

/-- A concrete one-snapshot history for the concrete instantiations. -/
def sampleHistory : PositionHistory :=
  ⟨120, [⟨900, [(1, ⟨5, 7, 2, false⟩)]⟩], 0, 0, 1⟩

/-- A concrete knife thrown at wall-clock 900 by team 1. -/
def sampleKnife : Knife :=
  ⟨1, 7, 1, 0, 0, none, none, 0, 0, 0, 0, false, 900⟩

/-- A concrete living team-2 player standing away from its historical
position. -/
def sampleEnemy : Player :=
  ⟨1, 2, 2, 5, 20, 30, 20, 30, false, false, 0, 0⟩

/-- Witness for c2_lag_compensation_target: with 100 ms of lag and the
sample history holding the enemy alive at (5, 7), the swept test centre
is the historical position. -/
theorem c2_lag_compensation_target_witness :
    (sampleKnife.clientTimestamp ≠ 0 ∧
     (0 : ℤ) < 1000 - sampleKnife.clientTimestamp ∧
     1000 - sampleKnife.clientTimestamp < 1000 ∧
     getPositionsAt sampleHistory sampleKnife.clientTimestamp =
       some [(1, ⟨5, 7, 2, false⟩)] ∧
     alookup 1 [(1, (⟨5, 7, 2, false⟩ : PosEntry))] = some ⟨5, 7, 2, false⟩ ∧
     (⟨5, 7, 2, false⟩ : PosEntry).isDead = false) ∧
    lagCompTarget 1000 sampleHistory true sampleKnife 1 sampleEnemy =
      ((5 : ℚ), (7 : ℚ)) := by
  have hcts : sampleKnife.clientTimestamp ≠ 0 := by decide
  have h1 : (0 : ℤ) < 1000 - sampleKnife.clientTimestamp := by decide
  have h2 : (1000 : ℤ) - sampleKnife.clientTimestamp < 1000 := by decide
  have hpos : getPositionsAt sampleHistory sampleKnife.clientTimestamp =
      some [(1, ⟨5, 7, 2, false⟩)] := rfl
  have hlook : alookup 1 [(1, (⟨5, 7, 2, false⟩ : PosEntry))] =
      some ⟨5, 7, 2, false⟩ := rfl
  exact ⟨⟨hcts, h1, h2, hpos, hlook, rfl⟩,
    (c2_lag_compensation_target 1000 sampleHistory sampleKnife 1 sampleEnemy
      hcts).1 h1 h2 _ _ hpos hlook rfl⟩

/-- A player that is dead, on the knife's own team, or missed by the
swept test is passed over by the sweep without any change. -/
theorem knifeSweep_skip (now : ℤ) (hist : PositionHistory) (lagEnabled : Bool)
    (tick kid : Nat) (knife : Knife) (e : Nat × Player)
    (rest : List (Nat × Player))
    (h : e.2.isDead = true ∨ e.2.team = knife.ownerTeam ∨
         sweepHitTest now hist lagEnabled knife e.1 e.2 = false) :
    knifeSweep now hist lagEnabled tick kid knife (e :: rest) =
      (e :: (knifeSweep now hist lagEnabled tick kid knife rest).1,
       (knifeSweep now hist lagEnabled tick kid knife rest).2) := by
  obtain ⟨sid, p⟩ := e
  by_cases hd : p.isDead = true
  · simp [knifeSweep, hd]
  · by_cases ht : p.team = knife.ownerTeam
    · simp [knifeSweep, hd, ht]
    · have hm : sweepHitTest now hist lagEnabled knife sid p = false := by
        rcases h with h | h | h
        · exact absurd h hd
        · exact absurd h ht
        · exact h
      simp [knifeSweep, hd, ht, hm]

/-- C3: within one knife's per-tick sweep, the first colliding enemy
player (every earlier entry being dead, friendly or missed) has its
health decremented by exactly one, clamped at zero, with isDead set
exactly when the health reaches zero; the knife's hasHit flag is set;
the health-update event is emitted before the knife-hit event; and no
later player is examined or changed. -/
theorem c3_first_hit (now : ℤ) (hist : PositionHistory) (lagEnabled : Bool)
    (tick kid : Nat) (knife : Knife) (pre post : List (Nat × Player))
    (sid : Nat) (p : Player)
    (hpre : ∀ e ∈ pre, e.2.isDead = true ∨ e.2.team = knife.ownerTeam ∨
        sweepHitTest now hist lagEnabled knife e.1 e.2 = false)
    (halive : p.isDead = false) (hteam : ¬ p.team = knife.ownerTeam)
    (hhit : sweepHitTest now hist lagEnabled knife sid p = true)
    (hhp : 0 < p.health) :
    knifeSweep now hist lagEnabled tick kid knife (pre ++ (sid, p) :: post) =
      (pre ++ (sid, { p with health := p.health - 1,
                             isDead := decide (p.health - 1 = 0) }) :: post,
       { knife with hasHit := true },
       [Event.healthUpdate p.playerId p.team (p.health - 1)
          (decide (p.health - 1 = 0)) tick now,
        Event.knifeHit kid p.team knife.x knife.z tick]) := by
  induction pre with
  | nil =>
    have h1 : max 0 (p.health - 1) = p.health - 1 :=
      max_eq_right (by omega)
    have h2 : (if p.health - 1 ≤ 0 ∧ ¬ p.isDead = true then true else p.isDead) =
        decide (p.health - 1 = 0) := by
      by_cases hh : p.health - 1 = 0
      · rw [if_pos ⟨le_of_eq hh, by simp [halive]⟩]
        simp [hh]
      · rw [if_neg]
        · simp [halive, Ne.symm hh, hh]
        · rintro ⟨hle, -⟩
          omega
    simp only [List.nil_append]
    unfold knifeSweep
    rw [if_neg (by simp [halive]), if_neg hteam, if_pos hhit]
    dsimp only
    rw [h1, h2]
  | cons e pre ih =>
    have hskip := knifeSweep_skip now hist lagEnabled tick kid knife e
      (pre ++ (sid, p) :: post) (hpre e (by simp))
    have ih' := ih (fun e' he' => hpre e' (by simp [he']))
    simp only [List.cons_append]
    rw [hskip, ih']

/-- A concrete team-1 knife lying on top of the concrete victim. -/
def c3Knife : Knife := ⟨1, 7, 1, 0, 0, none, none, 0, 0, 1000, 0, false, 1000⟩

/-- A concrete living team-2 victim at the knife's position. -/
def c3Victim : Player := ⟨2, 3, 2, 5, 0, 0, 0, 0, false, false, 0, 0⟩

/-- Witness for c3_first_hit: the sweep of the concrete knife over the
one-victim list applies the damage and emits the two events. -/
theorem c3_first_hit_witness :
    ((∀ e ∈ ([] : List (Nat × Player)), e.2.isDead = true ∨
        e.2.team = c3Knife.ownerTeam ∨
        sweepHitTest 1000 sampleHistory true c3Knife e.1 e.2 = false) ∧
     c3Victim.isDead = false ∧ ¬ c3Victim.team = c3Knife.ownerTeam ∧
     sweepHitTest 1000 sampleHistory true c3Knife 2 c3Victim = true ∧
     0 < c3Victim.health) ∧
    knifeSweep 1000 sampleHistory true 4 1 c3Knife
        ([] ++ (2, c3Victim) :: []) =
      ([] ++ (2, { c3Victim with
                   health := c3Victim.health - 1,
                   isDead := decide (c3Victim.health - 1 = 0) }) :: [],
       { c3Knife with hasHit := true },
       [Event.healthUpdate c3Victim.playerId c3Victim.team (c3Victim.health - 1)
          (decide (c3Victim.health - 1 = 0)) 4 1000,
        Event.knifeHit 1 c3Victim.team c3Knife.x c3Knife.z 4]) := by
  have hpre : ∀ e ∈ ([] : List (Nat × Player)), e.2.isDead = true ∨
      e.2.team = c3Knife.ownerTeam ∨
      sweepHitTest 1000 sampleHistory true c3Knife e.1 e.2 = false := by
    intro e he
    cases he
  have halive : c3Victim.isDead = false := rfl
  have hteam : ¬ c3Victim.team = c3Knife.ownerTeam := by decide
  have hhit : sweepHitTest 1000 sampleHistory true c3Knife 2 c3Victim = true := by
    norm_num [sweepHitTest, lagCompTarget, lineCircleIntersection,
      COLLISION_RADIUS, c3Knife, c3Victim]
  have hhp : (0 : ℤ) < c3Victim.health := by decide
  exact ⟨⟨hpre, halive, hteam, hhit, hhp⟩,
    c3_first_hit 1000 sampleHistory true 4 1 c3Knife [] [] 2 c3Victim
      hpre halive hteam hhit hhp⟩

/-- checkGameOver never touches the position history. -/
theorem checkGameOver_positionHistory (now : ℤ) (s : GameState) :
    (checkGameOver now s).1.positionHistory = s.positionHistory := by
  unfold checkGameOver
  split_ifs
  · cases hts : aliveTeams s.players with
    | nil => rfl
    | cons t ts =>
      cases ts with
      | nil => rfl
      | cons t2 rest => rfl
  · rfl

/-- checkKnifeCollisions never touches the position history. -/
theorem checkKnifeCollisions_positionHistory (now : ℤ) (s : GameState) :
    (checkKnifeCollisions now s).1.positionHistory = s.positionHistory := rfl

/-- One precise-loop physics step never touches the position history. -/
theorem preciseTickBody_positionHistory (sqrtQ : ℚ → ℚ) (now : ℤ)
    (s : GameState) :
    (preciseTickBody sqrtQ now s).1.positionHistory = s.positionHistory := by
  unfold preciseTickBody
  dsimp only
  rw [checkGameOver_positionHistory, checkKnifeCollisions_positionHistory]

/-- Iterated precise-loop physics steps never touch the position
history. -/
theorem iterateTicks_positionHistory (sqrtQ : ℚ → ℚ) (now : ℤ) :
    ∀ (n : Nat) (s : GameState),
      (iterateTicks sqrtQ now n s).1.positionHistory = s.positionHistory := by
  intro n
  induction n with
  | zero => intro s; rfl
  | succ k ih =>
    intro s
    unfold iterateTicks
    dsimp only
    rw [ih, preciseTickBody_positionHistory]

/-- The broadcast loop never changes the engine state at all. -/
theorem iterateBroadcasts_state (now : ℤ) :
    ∀ (n : Nat) (s : GameState), (iterateBroadcasts now n s).1 = s := by
  intro n
  induction n with
  | zero => intro s; rfl
  | succ k ih =>
    intro s
    unfold iterateBroadcasts
    dsimp only
    rw [ih]

/-- C1 (divergence): the game loop actually started for a room is
runPreciseLoop, and neither its physics step nor a whole loop iteration
ever records a snapshot into the Position History ring buffer - the
recordSnapshot call exists only in the uncalled tickStandard.  In
particular a room whose history starts empty keeps it empty forever,
so every hit-detection lookup falls back to current positions. -/
theorem c1_running_loop_records_no_snapshot (sqrtQ : ℚ → ℚ) (now : ℤ)
    (tickSteps netSteps : Nat) (s : GameState) :
    (preciseTickBody sqrtQ now s).1.positionHistory = s.positionHistory
    ∧ (runPreciseLoopIteration sqrtQ now tickSteps netSteps s).1.positionHistory
        = s.positionHistory
    ∧ (s.positionHistory.count = 0 → ∀ target : ℤ,
        getPositionsAt
          (runPreciseLoopIteration sqrtQ now tickSteps netSteps s).1.positionHistory
          target = none) := by
  have hiter : (runPreciseLoopIteration sqrtQ now tickSteps netSteps s).1.positionHistory
      = s.positionHistory := by
    unfold runPreciseLoopIteration
    split_ifs
    · dsimp only
      rw [iterateBroadcasts_state, iterateTicks_positionHistory]
    · rfl
  refine ⟨preciseTickBody_positionHistory sqrtQ now s, hiter, ?_⟩
  intro hcount target
  rw [hiter]
  unfold getPositionsAt
  rw [if_pos hcount]

/-- Witness for c1_running_loop_records_no_snapshot: a full iteration
on a concrete started room leaves the empty history empty, so the
lag-compensation lookup fails. -/
theorem c1_running_loop_records_no_snapshot_witness :
    ({ sampleState with gameStarted := true, loopRunning := true
       } : GameState).positionHistory.count = 0 ∧
    getPositionsAt
      (runPreciseLoopIteration sampleSqrt 1000 1 1
        { sampleState with gameStarted := true, loopRunning := true }).1.positionHistory
      1000 = none := by
  refine ⟨rfl, ?_⟩
  exact (c1_running_loop_records_no_snapshot sampleSqrt 1000 1 1
    { sampleState with gameStarted := true, loopRunning := true }).2.2 rfl 1000

/-- Membership in the team-collecting fold of checkGameOver: a team is
collected exactly when it is already in the accumulator or some living
player carries it. -/
theorem aliveTeams_go_mem (t : ℤ) :
    ∀ (players : List (Nat × Player)) (acc : List ℤ),
      (t ∈ players.foldl
          (fun acc e =>
            if e.2.isDead then acc
            else if e.2.team ∈ acc then acc
            else acc ++ [e.2.team]) acc ↔
        t ∈ acc ∨ ∃ e ∈ players, e.2.isDead = false ∧ e.2.team = t) := by
  intro players
  induction players with
  | nil => intro acc; simp
  | cons e rest ih =>
    intro acc
    simp only [List.foldl_cons]
    by_cases hd : e.2.isDead = true
    · rw [if_pos hd, ih]
      simp [hd]
    · have hd' : e.2.isDead = false := by
        cases h : e.2.isDead with
        | false => rfl
        | true => exact absurd h hd
      rw [if_neg hd]
      by_cases hmem : e.2.team ∈ acc
      · rw [if_pos hmem, ih]
        simp only [List.exists_mem_cons_iff, hd', true_and]
        constructor
        · rintro (h | h)
          · exact Or.inl h
          · exact Or.inr (Or.inr h)
        · rintro (h | h | h)
          · exact Or.inl h
          · exact Or.inl (h ▸ hmem)
          · exact Or.inr h
      · rw [if_neg hmem, ih]
        simp only [List.mem_append, List.mem_singleton,
          List.exists_mem_cons_iff, hd', true_and]
        constructor
        · rintro ((h | h) | h)
          · exact Or.inl h
          · exact Or.inr (Or.inl h.symm)
          · exact Or.inr (Or.inr h)
        · rintro (h | h | h)
          · exact Or.inl (Or.inl h)
          · exact Or.inl (Or.inr h.symm)
          · exact Or.inr h

/-- A team is an alive team exactly when some living player carries it. -/
theorem aliveTeams_mem (t : ℤ) (players : List (Nat × Player)) :
    t ∈ aliveTeams players ↔
      ∃ e ∈ players, e.2.isDead = false ∧ e.2.team = t := by
  unfold aliveTeams
  rw [aliveTeams_go_mem]
  simp

/-- Once the accumulator is exactly the one team every living player
carries, the fold leaves it unchanged. -/
theorem aliveTeams_go_const (t : ℤ) :
    ∀ players : List (Nat × Player),
      (∀ e ∈ players, e.2.isDead = false → e.2.team = t) →
      players.foldl
          (fun acc e =>
            if e.2.isDead then acc
            else if e.2.team ∈ acc then acc
            else acc ++ [e.2.team]) [t] = [t] := by
  intro players
  induction players with
  | nil => intro h; rfl
  | cons e rest ih =>
    intro h
    simp only [List.foldl_cons]
    by_cases hd : e.2.isDead = true
    · rw [if_pos hd]
      exact ih (fun e' he' => h e' (List.mem_cons_of_mem e he'))
    · have hd' : e.2.isDead = false := by
        cases hb : e.2.isDead with
        | false => rfl
        | true => exact absurd hb hd
      rw [if_neg hd, if_pos]
      · exact ih (fun e' he' => h e' (List.mem_cons_of_mem e he'))
      · rw [h e (List.mem_cons_self e rest) hd']
        exact List.mem_singleton_self t

/-- When every player is dead the collected team list is empty. -/
theorem aliveTeams_all_dead :
    ∀ players : List (Nat × Player),
      (∀ e ∈ players, e.2.isDead = true) → aliveTeams players = [] := by
  intro players
  induction players with
  | nil => intro h; rfl
  | cons e rest ih =>
    intro h
    unfold aliveTeams at ih ⊢
    simp only [List.foldl_cons]
    rw [if_pos (h e (List.mem_cons_self e rest))]
    exact ih (fun e' he' => h e' (List.mem_cons_of_mem e he'))

/-- When some player lives and every living player carries team t, the
collected team list is exactly the singleton t. -/
theorem aliveTeams_singleton (t : ℤ) :
    ∀ players : List (Nat × Player),
      (∃ e ∈ players, e.2.isDead = false) →
      (∀ e ∈ players, e.2.isDead = false → e.2.team = t) →
      aliveTeams players = [t] := by
  intro players
  induction players with
  | nil =>
    rintro ⟨e, he, -⟩
    cases he
  | cons e rest ih =>
    rintro ⟨w, hw, hwalive⟩ hall
    unfold aliveTeams at ih ⊢
    simp only [List.foldl_cons]
    by_cases hd : e.2.isDead = true
    · rw [if_pos hd]
      have hw' : w ∈ rest := by
        rcases List.mem_cons.mp hw with h | h
        · rw [h] at hwalive
          rw [hwalive] at hd
          cases hd
        · exact h
      exact ih ⟨w, hw', hwalive⟩ (fun e' he' => hall e' (List.mem_cons_of_mem e he'))
    · have hd' : e.2.isDead = false := by
        cases hb : e.2.isDead with
        | false => rfl
        | true => exact absurd hb hd
      rw [if_neg hd, if_neg (List.not_mem_nil e.2.team), List.nil_append,
        hall e (List.mem_cons_self e rest) hd']
      exact aliveTeams_go_const t rest
        (fun e' he' => hall e' (List.mem_cons_of_mem e he'))

/-- C8 counterexample: on a concrete started room whose only player is
alive on team 2, one loop iteration with one due physics step and one
due broadcast emits the game-over event and then still emits a full
room-state broadcast after it, although the loop was stopped by the
game-over; so a state broadcast can follow the game-over event. -/
theorem c8_counterexample :
    (runPreciseLoopIteration sampleSqrt 1000 1 1
        { sampleState with gameStarted := true, loopRunning := true }).2 =
      [Event.gameOver 2 1 1000,
       Event.gameState 1 1000 []
         [⟨5, 2, 0, 0, 0, 0, false, false, MAX_HEALTH, 0⟩]] ∧
    (runPreciseLoopIteration sampleSqrt 1000 1 1
        { sampleState with gameStarted := true, loopRunning := true
          }).1.loopRunning = false := by
  constructor
  · rfl
  · rfl

/-- C8 amended: after a physics tick of a started game, if exactly one
team has a living player, checkGameOver emits the game-over event for
that team and stops the loop; broadcasts already due in the same loop
iteration are still sent after it, and from the next iteration on the
stopped loop sends nothing at all; with zero teams alive or two
distinct teams alive, no game-over event is emitted and the state is
unchanged. -/
theorem c8_game_over_amended (now : ℤ) (s : GameState) (t : ℤ)
    (hstart : s.gameStarted = true) :
    ((∃ e ∈ s.players, e.2.isDead = false) →
     (∀ e ∈ s.players, e.2.isDead = false → e.2.team = t) →
     checkGameOver now s =
       ({ s with loopRunning := false, gameStarted := false },
        [Event.gameOver t s.serverTick now]))
    ∧ ((∀ e ∈ s.players, e.2.isDead = true) → checkGameOver now s = (s, []))
    ∧ (∀ e1, e1 ∈ s.players → ∀ e2, e2 ∈ s.players → e1.2.isDead = false →
        e2.2.isDead = false → e1.2.team ≠ e2.2.team →
        checkGameOver now s = (s, []))
    ∧ (∀ s' : GameState, s'.loopRunning = false → ∀ sqrtQ n ts ns,
        runPreciseLoopIteration sqrtQ n ts ns s' = (s', [])) := by
  refine ⟨?_, ?_, ?_, ?_⟩
  · intro hex hall
    unfold checkGameOver
    rw [if_neg (by simp [hstart]), aliveTeams_singleton t s.players hex hall]
  · intro hdead
    unfold checkGameOver
    rw [if_neg (by simp [hstart]), aliveTeams_all_dead s.players hdead]
  · intro e1 he1 e2 he2 ha1 ha2 hne
    have hm1 : e1.2.team ∈ aliveTeams s.players :=
      (aliveTeams_mem e1.2.team s.players).mpr ⟨e1, he1, ha1, rfl⟩
    have hm2 : e2.2.team ∈ aliveTeams s.players :=
      (aliveTeams_mem e2.2.team s.players).mpr ⟨e2, he2, ha2, rfl⟩
    unfold checkGameOver
    rw [if_neg (by simp [hstart])]
    cases hts : aliveTeams s.players with
    | nil => rfl
    | cons a as =>
      cases as with
      | nil =>
        rw [hts] at hm1 hm2
        simp only [List.mem_singleton] at hm1 hm2
        exact absurd (hm1.trans hm2.symm) hne
      | cons b bs => rfl
  · intro s' hstop sqrtQ n ts ns
    unfold runPreciseLoopIteration
    rw [if_pos (by simp [hstop])]

/-- Witness for c8_game_over_amended: the concrete one-player room, in
which the one living player is on team 2, triggers the game-over path. -/
theorem c8_game_over_amended_witness :
    (({ sampleState with gameStarted := true, loopRunning := true
        } : GameState).gameStarted = true ∧
     (∃ e ∈ ({ sampleState with gameStarted := true, loopRunning := true
        } : GameState).players, e.2.isDead = false) ∧
     (∀ e ∈ ({ sampleState with gameStarted := true, loopRunning := true
        } : GameState).players, e.2.isDead = false → e.2.team = 2)) ∧
    checkGameOver 1000 { sampleState with gameStarted := true, loopRunning := true } =
      ({ { sampleState with gameStarted := true, loopRunning := true } with
          loopRunning := false, gameStarted := false },
       [Event.gameOver 2
          ({ sampleState with gameStarted := true, loopRunning := true
             } : GameState).serverTick 1000]) := by
  have hex : ∃ e ∈ ({ sampleState with gameStarted := true, loopRunning := true
      } : GameState).players, e.2.isDead = false := by
    refine ⟨(1, samplePlayer), ?_, rfl⟩
    simp [sampleState, addPlayer, initialEngineState, samplePlayer, MAX_HEALTH]
  have hall : ∀ e ∈ ({ sampleState with gameStarted := true, loopRunning := true
      } : GameState).players, e.2.isDead = false → e.2.team = 2 := by
    intro e he _
    simp only [sampleState, addPlayer, initialEngineState, List.nil_append,
      List.mem_singleton] at he
    rw [he]
  exact ⟨⟨rfl, hex, hall⟩,
    (c8_game_over_amended 1000
      { sampleState with gameStarted := true, loopRunning := true } 2 rfl).1 hex hall⟩

/-- C9 counterexample: the constructor starts the broadcast schedule at
NETWORK_UPDATE_RATE 25 Hz (interval 40 ms), not 60 Hz; only the
controller's internal rate guard netCurrentRate starts at 60. -/
theorem c9_counterexample :
    (initialEngineState 3 GameMode.oneVone).NETWORK_UPDATE_RATE = 25 ∧
    (initialEngineState 3 GameMode.oneVone).netIntervalNs = 40000000 ∧
    ¬ (initialEngineState 3 GameMode.oneVone).NETWORK_UPDATE_RATE = 60 ∧
    (initialEngineState 3 GameMode.oneVone).netCurrentRate = 60 := by
  refine ⟨rfl, by decide, by decide, rfl⟩

/-- C9 amended: the broadcast rate starts at 25 Hz (the controller's
rate guard netCurrentRate starting at 60); in state normal, after 3
consecutive overload samples the controller enters degraded and sets
the broadcast rate to 30 Hz, resetting the broadcast deadline; in
state degraded, after 5 consecutive recover samples it returns to
normal and sets 60 Hz; each overload sample resets the recover counter
and each recover sample resets the overload counter; the physics tick
rate is never changed by the controller. -/
theorem c9_controller_amended (rc : Nat) (gm : GameMode) :
    (initialEngineState rc gm).NETWORK_UPDATE_RATE = 25
    ∧ (initialEngineState rc gm).netCurrentRate = 60
    ∧ (initialEngineState rc gm).degradeState = DegradeState.normal
    ∧ (initialEngineState rc gm).tickRate = 125
    ∧ (∀ (nowNs : ℤ) (el : ElSample) (s : GameState), overloadSample el = true →
        (controllerStep nowNs el s).overloadConsec = s.overloadConsec + 1 ∧
        (controllerStep nowNs el s).recoverConsec = 0)
    ∧ (∀ (nowNs : ℤ) (el : ElSample) (s : GameState), overloadSample el = false →
        recoverSample el = true →
        (controllerStep nowNs el s).recoverConsec = s.recoverConsec + 1 ∧
        (controllerStep nowNs el s).overloadConsec = 0)
    ∧ (∀ (nowNs : ℤ) (el : ElSample) (s : GameState),
        s.degradeState = DegradeState.normal → overloadSample el = true →
        3 ≤ s.overloadConsec + 1 → s.netCurrentRate ≠ 30 →
        (controllerStep nowNs el s).degradeState = DegradeState.degraded ∧
        (controllerStep nowNs el s).netCurrentRate = 30 ∧
        (controllerStep nowNs el s).NETWORK_UPDATE_RATE = 30 ∧
        (controllerStep nowNs el s).netIntervalNs = 33333333 ∧
        (controllerStep nowNs el s).nextNetNs = nowNs + 33333333)
    ∧ (∀ (nowNs : ℤ) (el : ElSample) (s : GameState),
        s.degradeState = DegradeState.degraded → overloadSample el = false →
        recoverSample el = true → 5 ≤ s.recoverConsec + 1 → s.netCurrentRate ≠ 60 →
        (controllerStep nowNs el s).degradeState = DegradeState.normal ∧
        (controllerStep nowNs el s).netCurrentRate = 60 ∧
        (controllerStep nowNs el s).NETWORK_UPDATE_RATE = 60)
    ∧ (∀ (nowNs : ℤ) (el : ElSample) (s : GameState),
        (controllerStep nowNs el s).tickRate = s.tickRate) := by
  refine ⟨rfl, rfl, rfl, rfl, ?_, ?_, ?_, ?_, ?_⟩
  · intro nowNs el s hov
    unfold controllerStep
    rw [if_pos hov]
    dsimp only
    split_ifs <;> exact ⟨rfl, rfl⟩
  · intro nowNs el s hov hrec
    unfold controllerStep
    rw [if_neg (by simp [hov]), if_pos hrec]
    dsimp only
    split_ifs <;> exact ⟨rfl, rfl⟩
  · intro nowNs el s hnorm hov hcnt hguard
    unfold controllerStep
    rw [if_pos hov]
    dsimp only
    rw [if_pos ⟨hnorm, hcnt⟩, if_pos hguard]
    exact ⟨rfl, rfl, rfl, by norm_num, by norm_num⟩
  · intro nowNs el s hdeg hov hrec hcnt hguard
    unfold controllerStep
    rw [if_neg (by simp [hov]), if_pos hrec]
    dsimp only
    rw [if_pos ⟨hdeg, hcnt⟩, if_pos hguard]
    exact ⟨rfl, rfl, rfl⟩
  · intro nowNs el s
    unfold controllerStep
    dsimp only
    split_ifs <;> rfl

/-- Witness for c9_controller_amended: a third consecutive overload
sample (p95 of 9 ms) in state normal drops the broadcast rate to
30 Hz. -/
theorem c9_controller_amended_witness :
    (({ initialEngineState 3 GameMode.oneVone with overloadConsec := 2
        } : GameState).degradeState = DegradeState.normal ∧
     overloadSample ⟨9, 0⟩ = true ∧
     3 ≤ ({ initialEngineState 3 GameMode.oneVone with overloadConsec := 2
        } : GameState).overloadConsec + 1 ∧
     ({ initialEngineState 3 GameMode.oneVone with overloadConsec := 2
        } : GameState).netCurrentRate ≠ 30) ∧
    (controllerStep 7000 ⟨9, 0⟩
        { initialEngineState 3 GameMode.oneVone with overloadConsec := 2
          }).NETWORK_UPDATE_RATE = 30 := by
  have hov : overloadSample ⟨9, 0⟩ = true := by
    norm_num [overloadSample]
  refine ⟨⟨rfl, hov, by decide, by decide⟩, ?_⟩
  exact ((c9_controller_amended 3 GameMode.oneVone).2.2.2.2.2.2.1 7000 ⟨9, 0⟩
    { initialEngineState 3 GameMode.oneVone with overloadConsec := 2 }
    rfl hov (by decide) (by decide)).2.2.1

/-- Per-player health and death invariant of the engine: health in
[0, MAX_HEALTH] and a dead player has exactly zero health. -/
def PlayerInv (p : Player) : Prop :=
  0 ≤ p.health ∧ p.health ≤ MAX_HEALTH ∧ (p.isDead = true → p.health = 0)

/-- The invariant over every player of a room. -/
def StateInv (s : GameState) : Prop := ∀ e ∈ s.players, PlayerInv e.2

/-- How one engine operation may evolve a single player: health never
increases and stays non-negative, a dead player is left completely
untouched (hence stays dead), and a player dead afterwards has zero
health. -/
def PlayerStep (p q : Player) : Prop :=
  q.health ≤ p.health ∧ 0 ≤ q.health ∧ (p.isDead = true → q = p) ∧
    (q.isDead = true → q.health = 0)

/-- Pointwise evolution of the player table: keys are preserved in
order and every player evolves by PlayerStep. -/
def PlayersStep (l l' : List (Nat × Player)) : Prop :=
  List.Forall₂ (fun a b => a.1 = b.1 ∧ PlayerStep a.2 b.2) l l'

/-- PlayerStep is reflexive on players satisfying the invariant. -/
theorem PlayerStep_refl (p : Player) (h : PlayerInv p) : PlayerStep p p :=
  ⟨le_refl _, h.1, fun _ => rfl, h.2.2⟩

/-- PlayerStep composes. -/
theorem PlayerStep_trans {p q r : Player} (h1 : PlayerStep p q)
    (h2 : PlayerStep q r) : PlayerStep p r := by
  refine ⟨le_trans h2.1 h1.1, h2.2.1, ?_, h2.2.2.2⟩
  intro hd
  have hq : q = p := h1.2.2.1 hd
  rw [hq] at h2
  exact h2.2.2.1 hd

/-- PlayerStep preserves the per-player invariant. -/
theorem PlayerStep_inv {p q : Player} (h : PlayerInv p) (hs : PlayerStep p q) :
    PlayerInv q :=
  ⟨hs.2.1, le_trans hs.1 h.2.1, hs.2.2.2⟩

/-- PlayersStep is reflexive on tables satisfying the invariant. -/
theorem PlayersStep_refl (l : List (Nat × Player))
    (h : ∀ e ∈ l, PlayerInv e.2) : PlayersStep l l := by
  induction l with
  | nil => exact List.Forall₂.nil
  | cons e rest ih =>
    exact List.Forall₂.cons ⟨rfl, PlayerStep_refl e.2 (h e (by simp))⟩
      (ih (fun e' he' => h e' (by simp [he'])))

/-- PlayersStep composes. -/
theorem PlayersStep_trans {l1 l2 l3 : List (Nat × Player)}
    (h12 : PlayersStep l1 l2) (h23 : PlayersStep l2 l3) :
    PlayersStep l1 l3 := by
  induction h12 generalizing l3 with
  | nil =>
    cases h23
    exact List.Forall₂.nil
  | cons h hrest ih =>
    cases h23 with
    | cons h' hrest' =>
      exact List.Forall₂.cons ⟨h.1.trans h'.1, PlayerStep_trans h.2 h'.2⟩
        (ih hrest')

/-- PlayersStep preserves the table-wide invariant. -/
theorem PlayersStep_inv {l l' : List (Nat × Player)}
    (hstep : PlayersStep l l') :
    (∀ e ∈ l, PlayerInv e.2) → ∀ e ∈ l', PlayerInv e.2 := by
  induction hstep with
  | nil =>
    intro _ e he
    cases he
  | @cons a b l1 l2 h hrest ih =>
    intro hinv e he
    rcases List.mem_cons.mp he with heq | he'
    · rw [heq]
      exact PlayerStep_inv (hinv a (List.mem_cons_self a l1)) h.2
    · exact ih (fun e' he'' => hinv e' (List.mem_cons_of_mem a he'')) e he'

/-- The movement integrator evolves every player by PlayerStep: it
never touches health or liveness and leaves dead players untouched. -/
theorem updatePlayerMovement_step (sqrtQ : ℚ → ℚ) (dt : ℚ)
    (l : List (Nat × Player)) (h : ∀ e ∈ l, PlayerInv e.2) :
    PlayersStep l (updatePlayerMovement sqrtQ dt l) := by
  unfold updatePlayerMovement PlayersStep
  rw [List.forall₂_map_right_iff]
  rw [List.forall₂_same]
  intro e he
  have hinv := h e he
  by_cases hskip : ¬ e.2.isMoving = true ∨ e.2.isDead = true
  · rw [if_pos hskip]
    exact ⟨rfl, PlayerStep_refl e.2 hinv⟩
  · rw [if_neg hskip]
    have hd : ¬ e.2.isDead = true := fun hdd => hskip (Or.inr hdd)
    have hstep : ∀ x' z' : ℚ, ∀ m : Bool,
        PlayerStep e.2 { e.2 with x := x', z := z', isMoving := m } := by
      intro x' z' m
      exact ⟨le_refl _, hinv.1, fun hdd => absurd hdd hd,
             fun hdd => hinv.2.2 hdd⟩
    dsimp only
    split_ifs <;> exact ⟨rfl, hstep _ _ _⟩

/-- The damage applied on a hit evolves the victim by PlayerStep. -/
theorem hitDamage_step (p : Player) (hinv : PlayerInv p)
    (hd : ¬ p.isDead = true) :
    PlayerStep p { p with health := max 0 (p.health - 1),
                          isDead := if max 0 (p.health - 1) ≤ 0 ∧ ¬ p.isDead = true
                                    then true else p.isDead } := by
  refine ⟨max_le hinv.1 (by omega), le_max_left 0 _, fun hdd => absurd hdd hd, ?_⟩
  intro hdead
  by_cases hcond : max 0 (p.health - 1) ≤ 0 ∧ ¬ p.isDead = true
  · exact le_antisymm hcond.1 (le_max_left 0 _)
  · exfalso
    simp only [hcond, if_false] at hdead
    exact hd hdead

/-- One knife sweep evolves the whole table by PlayersStep. -/
theorem knifeSweep_step (now : ℤ) (hist : PositionHistory) (lagEnabled : Bool)
    (tick kid : Nat) (knife : Knife) :
    ∀ l : List (Nat × Player), (∀ e ∈ l, PlayerInv e.2) →
      PlayersStep l (knifeSweep now hist lagEnabled tick kid knife l).1 := by
  intro l
  induction l with
  | nil =>
    intro h
    exact List.Forall₂.nil
  | cons e rest ih =>
    intro h
    have hinv : PlayerInv e.2 := h e (List.mem_cons_self e rest)
    have hrest : ∀ e' ∈ rest, PlayerInv e'.2 :=
      fun e' he' => h e' (List.mem_cons_of_mem e he')
    by_cases hd : e.2.isDead = true
    · rw [knifeSweep_skip now hist lagEnabled tick kid knife e rest (Or.inl hd)]
      exact List.Forall₂.cons ⟨rfl, PlayerStep_refl e.2 hinv⟩ (ih hrest)
    · by_cases ht : e.2.team = knife.ownerTeam
      · rw [knifeSweep_skip now hist lagEnabled tick kid knife e rest
          (Or.inr (Or.inl ht))]
        exact List.Forall₂.cons ⟨rfl, PlayerStep_refl e.2 hinv⟩ (ih hrest)
      · by_cases hhit : sweepHitTest now hist lagEnabled knife e.1 e.2 = true
        · obtain ⟨sid, p⟩ := e
          unfold knifeSweep
          rw [if_neg hd, if_neg ht, if_pos hhit]
          dsimp only
          exact List.Forall₂.cons ⟨rfl, hitDamage_step p hinv hd⟩
            (PlayersStep_refl rest hrest)
        · have hmiss : sweepHitTest now hist lagEnabled knife e.1 e.2 = false := by
            cases hb : sweepHitTest now hist lagEnabled knife e.1 e.2 with
            | false => rfl
            | true => exact absurd hb hhit
          rw [knifeSweep_skip now hist lagEnabled tick kid knife e rest
            (Or.inr (Or.inr hmiss))]
          exact List.Forall₂.cons ⟨rfl, PlayerStep_refl e.2 hinv⟩ (ih hrest)

/-- The knife fold of checkKnifeCollisions evolves the table by
PlayersStep, whatever knife and event accumulators it starts from. -/
theorem collisionsFold_step (now : ℤ) (hist : PositionHistory)
    (lagEnabled : Bool) (tick : Nat) :
    ∀ (knives : List (Nat × Knife)) (l : List (Nat × Player))
      (kacc : List (Nat × Knife)) (eacc : List Event),
      (∀ e ∈ l, PlayerInv e.2) →
      PlayersStep l
        (knives.foldl
          (fun acc e =>
            if e.2.hasHit then (acc.1, acc.2.1 ++ [e], acc.2.2)
            else
              let sw := knifeSweep now hist lagEnabled tick e.1 e.2 acc.1
              (sw.1, acc.2.1 ++ [(e.1, sw.2.1)], acc.2.2 ++ sw.2.2))
          (l, kacc, eacc)).1 := by
  intro knives
  induction knives with
  | nil =>
    intro l kacc eacc h
    exact PlayersStep_refl l h
  | cons k ks ih =>
    intro l kacc eacc h
    simp only [List.foldl_cons]
    by_cases hh : k.2.hasHit = true
    · rw [if_pos hh]
      exact ih l (kacc ++ [k]) eacc h
    · rw [if_neg hh]
      have hsw := knifeSweep_step now hist lagEnabled tick k.1 k.2 l h
      have hswinv := PlayersStep_inv hsw h
      exact PlayersStep_trans hsw (ih _ _ _ hswinv)

/-- Hit detection evolves the whole table by PlayersStep. -/
theorem checkKnifeCollisions_step (now : ℤ) (s : GameState)
    (hInv : StateInv s) :
    PlayersStep s.players (checkKnifeCollisions now s).1.players := by
  unfold checkKnifeCollisions
  exact collisionsFold_step now s.positionHistory s.lagCompensationEnabled
    s.serverTick s.knives s.players [] [] hInv

/-- The entry found by the target-lookup loop of the collision report
is an entry of the table. -/
theorem findTargetOnTeam_mem (team : ℤ) :
    ∀ (l : List (Nat × Player)) (pr : Nat × Player),
      findTargetOnTeam team l = some pr → pr ∈ l := by
  intro l
  induction l with
  | nil =>
    intro pr h
    cases h
  | cons e rest ih =>
    intro pr h
    unfold findTargetOnTeam at h
    split_ifs at h with hc
    · injection h with h
      rw [← h]
      exact List.mem_cons_self e rest
    · exact List.mem_cons_of_mem e (ih pr h)

/-- The entry found by the target-lookup loop is alive. -/
theorem findTargetOnTeam_alive (team : ℤ) :
    ∀ (l : List (Nat × Player)) (pr : Nat × Player),
      findTargetOnTeam team l = some pr → pr.2.isDead = false := by
  intro l
  induction l with
  | nil =>
    intro pr h
    cases h
  | cons e rest ih =>
    intro pr h
    unfold findTargetOnTeam at h
    split_ifs at h with hc
    · injection h with h
      rw [← h]
      cases hb : e.2.isDead with
      | false => rfl
      | true => exact absurd hb hc.2
    · exact ih pr h

/-- Replacing the entry found by the target-lookup loop with an evolved
player evolves the whole table, the keys being duplicate-free. -/
theorem aupdate_playersStep (v : Player) (team : ℤ) :
    ∀ l : List (Nat × Player), (∀ e ∈ l, PlayerInv e.2) →
      (l.map Prod.fst).Nodup →
      ∀ tsid target, findTargetOnTeam team l = some (tsid, target) →
      PlayerStep target v →
      PlayersStep l (aupdate tsid v l) := by
  intro l
  induction l with
  | nil =>
    intro _ _ tsid target h _
    cases h
  | cons e rest ih =>
    intro hinv hnodup tsid target hfind hstep
    have hinvrest : ∀ e' ∈ rest, PlayerInv e'.2 :=
      fun e' he' => hinv e' (List.mem_cons_of_mem e he')
    have hnodup' : (e.1 :: rest.map Prod.fst).Nodup := by
      simpa using hnodup
    unfold findTargetOnTeam at hfind
    split_ifs at hfind with hc
    · injection hfind with hfind
      have hkey : e.1 = tsid := congrArg Prod.fst hfind
      have hval : e.2 = target := congrArg Prod.snd hfind
      unfold aupdate
      rw [if_pos hkey]
      exact List.Forall₂.cons ⟨rfl, hval ▸ hstep⟩
        (PlayersStep_refl rest hinvrest)
    · have hmem := findTargetOnTeam_mem team rest (tsid, target) hfind
      have hne : ¬ e.1 = tsid := by
        intro heq
        have htsid : tsid ∈ rest.map Prod.fst :=
          List.mem_map_of_mem Prod.fst hmem
        rw [← heq] at htsid
        exact (List.nodup_cons.mp hnodup').1 htsid
      unfold aupdate
      rw [if_neg hne]
      exact List.Forall₂.cons
        ⟨rfl, PlayerStep_refl e.2 (hinv e (List.mem_cons_self e rest))⟩
        (ih hinvrest (List.nodup_cons.mp hnodup').2 tsid target hfind hstep)

/-- The client-assisted damage path evolves the whole table by
PlayersStep. -/
theorem handleCollisionReport_step (now : ℤ) (aSid : Nat) (tTeam : ℤ)
    (s : GameState) (hInv : StateInv s)
    (hkeys : (s.players.map Prod.fst).Nodup) :
    PlayersStep s.players (handleCollisionReport now aSid tTeam s).1.players := by
  unfold handleCollisionReport
  cases ha : alookup aSid s.players with
  | none => exact PlayersStep_refl s.players hInv
  | some attacker =>
    cases hf : findTargetOnTeam tTeam s.players with
    | none =>
      dsimp only
      exact PlayersStep_refl s.players hInv
    | some pr =>
      obtain ⟨tsid, target⟩ := pr
      have htinv : PlayerInv target :=
        hInv (tsid, target) (findTargetOnTeam_mem tTeam s.players (tsid, target) hf)
      have htalive : ¬ target.isDead = true := by
        rw [findTargetOnTeam_alive tTeam s.players (tsid, target) hf]
        exact Bool.false_ne_true
      dsimp only
      by_cases hsame : attacker.team = target.team
      · rw [if_pos hsame]
        exact PlayersStep_refl s.players hInv
      · rw [if_neg hsame]
        exact aupdate_playersStep _ tTeam s.players hInv hkeys tsid target hf
          (hitDamage_step target htinv htalive)

/-- C7: under the room invariant (health within [0, MAX_HEALTH], a dead
player at exactly 0), every in-match operation evolves each player by
PlayerStep - health monotonically non-increasing and non-negative,
dead players completely untouched (hence never resurrected and skipped
by both the movement integrator and the hit detector), and any player
dead afterwards at exactly zero health - the invariant is preserved,
and a dead (or unknown) sender can never throw a knife. -/
theorem c7_health_death_invariants (sqrtQ : ℚ → ℚ) (dt : ℚ) (now : ℤ)
    (s : GameState) (hInv : StateInv s)
    (hkeys : (s.players.map Prod.fst).Nodup) :
    PlayersStep s.players (updatePlayerMovement sqrtQ dt s.players)
    ∧ (∀ e ∈ updatePlayerMovement sqrtQ dt s.players, PlayerInv e.2)
    ∧ PlayersStep s.players (checkKnifeCollisions now s).1.players
    ∧ StateInv (checkKnifeCollisions now s).1
    ∧ (∀ (aSid : Nat) (tTeam : ℤ),
        PlayersStep s.players (handleCollisionReport now aSid tTeam s).1.players
        ∧ StateInv (handleCollisionReport now aSid tTeam s).1)
    ∧ (∀ (sid : Nat) (p : Player) (tX tZ : ℚ) (aId : Nat) (cts : ℤ),
        alookup sid s.players = some p → p.isDead = true →
        handleKnifeThrow sqrtQ now sid tX tZ aId cts s = (s, [], none)) := by
  have hmv := updatePlayerMovement_step sqrtQ dt s.players hInv
  have hcc := checkKnifeCollisions_step now s hInv
  refine ⟨hmv, PlayersStep_inv hmv hInv, hcc, PlayersStep_inv hcc hInv, ?_, ?_⟩
  · intro aSid tTeam
    have hcr := handleCollisionReport_step now aSid tTeam s hInv hkeys
    exact ⟨hcr, PlayersStep_inv hcr hInv⟩
  · intro sid p tX tZ aId cts hp hd
    exact hkt_dead sqrtQ now sid tX tZ aId cts s p hp hd

/-- Witness for c7_health_death_invariants: the concrete one-player
room satisfies the invariant and the duplicate-free key condition. -/
theorem c7_health_death_invariants_witness :
    (StateInv sampleState ∧ (sampleState.players.map Prod.fst).Nodup) ∧
    StateInv (checkKnifeCollisions 1000 sampleState).1 := by
  have hInv : StateInv sampleState := by
    intro e he
    simp only [sampleState, addPlayer, initialEngineState, List.nil_append,
      List.mem_singleton] at he
    rw [he]
    refine ⟨by decide, by decide, ?_⟩
    intro h
    cases h
  have hkeys : (sampleState.players.map Prod.fst).Nodup := by
    simp [sampleState, addPlayer, initialEngineState]
  exact ⟨⟨hInv, hkeys⟩,
    (c7_health_death_invariants sampleSqrt 1 1000 sampleState hInv hkeys).2.2.2.1⟩

/-- The swept segment-versus-circle test written literally as in the
source over the reals, square roots included.  It exists only to
justify the squared comparisons used by lineCircleIntersection. -/
def lineCircleIntersectionR (x1 z1 x2 z2 cx cz r : ℝ) : Prop :=
  let dx := cx - x1
  let dz := cz - z1
  let lx := x2 - x1
  let lz := z2 - z1
  let lineLength := Real.sqrt (lx * lx + lz * lz)
  if lineLength < 0.001 then
    Real.sqrt (dx * dx + dz * dz) < r
  else
    let nx := lx / lineLength
    let nz := lz / lineLength
    let projection := dx * nx + dz * nz
    let t := max 0 (min lineLength projection)
    let closestX := x1 + nx * t
    let closestZ := z1 + nz * t
    let distX := cx - closestX
    let distZ := cz - closestZ
    Real.sqrt (distX * distX + distZ * distZ) < r

/-- Over the reals, the clamped parameter of the source (projection
clamped to [0, segment length], then divided out by the length) equals
the directly clamped fraction used by the embedding. -/
theorem clamp_div_eq (L q : ℝ) (hL : 0 < L) :
    (1 / L) * max 0 (min L (q / L)) = max 0 (min 1 (q / (L * L))) := by
  have hLne : L ≠ 0 := ne_of_gt hL
  have h1 : (q / (L * L)) * L = q / L := by
    field_simp
    ring
  have h2 : min 1 (q / (L * L)) * L = min L (q / L) := by
    rw [min_mul_of_nonneg _ _ (le_of_lt hL), one_mul, h1]
  have h3 : max 0 (min 1 (q / (L * L))) * L = max 0 (min L (q / L)) := by
    rw [max_mul_of_nonneg _ _ (le_of_lt hL), zero_mul, h2]
  rw [← h3]
  field_simp

/-- The rational, square-root-free swept test of the embedding agrees
exactly with the source's square-root formulation over the reals, for
any positive radius (the only radius used is COLLISION_RADIUS). -/
theorem lineCircleIntersection_iff_real (x1 z1 x2 z2 cx cz r : ℚ)
    (hr : 0 < r) :
    lineCircleIntersection x1 z1 x2 z2 cx cz r = true ↔
      lineCircleIntersectionR (x1 : ℝ) (z1 : ℝ) (x2 : ℝ) (z2 : ℝ)
        (cx : ℝ) (cz : ℝ) (r : ℝ) := by
  have hrR : (0 : ℝ) < (r : ℝ) := by exact_mod_cast hr
  have hcast : (((x2 - x1) * (x2 - x1) + (z2 - z1) * (z2 - z1) : ℚ) : ℝ) =
      ((x2 : ℝ) - x1) * ((x2 : ℝ) - x1) + ((z2 : ℝ) - z1) * ((z2 : ℝ) - z1) := by
    push_cast
    ring
  have hcond : ((x2 - x1) * (x2 - x1) + (z2 - z1) * (z2 - z1) : ℚ) < 1 / 1000000 ↔
      Real.sqrt (((x2 : ℝ) - x1) * ((x2 : ℝ) - x1) +
        ((z2 : ℝ) - z1) * ((z2 : ℝ) - z1)) < 0.001 := by
    rw [Real.sqrt_lt' (by norm_num : (0 : ℝ) < 0.001),
      show ((0.001 : ℝ)) ^ 2 = ((1 / 1000000 : ℚ) : ℝ) by push_cast; norm_num,
      ← hcast, Rat.cast_lt]
  unfold lineCircleIntersection lineCircleIntersectionR
  dsimp only
  by_cases hc : ((x2 - x1) * (x2 - x1) + (z2 - z1) * (z2 - z1) : ℚ) < 1 / 1000000
  · rw [if_pos hc, if_pos (hcond.mp hc), decide_eq_true_iff,
      Real.sqrt_lt' hrR, pow_two,
      show ((cx : ℝ) - x1) * ((cx : ℝ) - x1) + ((cz : ℝ) - z1) * ((cz : ℝ) - z1) =
        (((cx - x1) * (cx - x1) + (cz - z1) * (cz - z1) : ℚ) : ℝ) by push_cast; ring,
      show ((r : ℝ) * (r : ℝ)) = ((r * r : ℚ) : ℝ) by push_cast; ring,
      Rat.cast_lt]
  · rw [if_neg hc, if_neg (fun h => hc (hcond.mpr h))]
    have hLpos : (0 : ℝ) <
        Real.sqrt (((x2 : ℝ) - x1) * ((x2 : ℝ) - x1) +
          ((z2 : ℝ) - z1) * ((z2 : ℝ) - z1)) := by
      have h1 : (0.001 : ℝ) ≤ _ := not_lt.mp (fun h => hc (hcond.mpr h))
      exact lt_of_lt_of_le (by norm_num) h1
    have hL2 : Real.sqrt (((x2 : ℝ) - x1) * ((x2 : ℝ) - x1) +
          ((z2 : ℝ) - z1) * ((z2 : ℝ) - z1)) *
        Real.sqrt (((x2 : ℝ) - x1) * ((x2 : ℝ) - x1) +
          ((z2 : ℝ) - z1) * ((z2 : ℝ) - z1)) =
        ((x2 : ℝ) - x1) * ((x2 : ℝ) - x1) + ((z2 : ℝ) - z1) * ((z2 : ℝ) - z1) :=
      Real.mul_self_sqrt (add_nonneg (mul_self_nonneg _) (mul_self_nonneg _))
    have hproj : ((cx : ℝ) - x1) * (((x2 : ℝ) - x1) /
          Real.sqrt (((x2 : ℝ) - x1) * ((x2 : ℝ) - x1) +
            ((z2 : ℝ) - z1) * ((z2 : ℝ) - z1))) +
        ((cz : ℝ) - z1) * (((z2 : ℝ) - z1) /
          Real.sqrt (((x2 : ℝ) - x1) * ((x2 : ℝ) - x1) +
            ((z2 : ℝ) - z1) * ((z2 : ℝ) - z1))) =
        (((cx : ℝ) - x1) * ((x2 : ℝ) - x1) + ((cz : ℝ) - z1) * ((z2 : ℝ) - z1)) /
          Real.sqrt (((x2 : ℝ) - x1) * ((x2 : ℝ) - x1) +
            ((z2 : ℝ) - z1) * ((z2 : ℝ) - z1)) := by
      rw [← mul_div_assoc, ← mul_div_assoc, div_add_div_same]
    rw [hproj]
    have hclamp := clamp_div_eq
      (Real.sqrt (((x2 : ℝ) - x1) * ((x2 : ℝ) - x1) +
        ((z2 : ℝ) - z1) * ((z2 : ℝ) - z1)))
      (((cx : ℝ) - x1) * ((x2 : ℝ) - x1) + ((cz : ℝ) - z1) * ((z2 : ℝ) - z1))
      hLpos
    have htx : ((x2 : ℝ) - x1) /
          Real.sqrt (((x2 : ℝ) - x1) * ((x2 : ℝ) - x1) +
            ((z2 : ℝ) - z1) * ((z2 : ℝ) - z1)) *
        max 0 (min (Real.sqrt (((x2 : ℝ) - x1) * ((x2 : ℝ) - x1) +
            ((z2 : ℝ) - z1) * ((z2 : ℝ) - z1)))
          ((((cx : ℝ) - x1) * ((x2 : ℝ) - x1) + ((cz : ℝ) - z1) * ((z2 : ℝ) - z1)) /
            Real.sqrt (((x2 : ℝ) - x1) * ((x2 : ℝ) - x1) +
              ((z2 : ℝ) - z1) * ((z2 : ℝ) - z1)))) =
        ((x2 : ℝ) - x1) *
          max 0 (min 1
            ((((cx : ℝ) - x1) * ((x2 : ℝ) - x1) + ((cz : ℝ) - z1) * ((z2 : ℝ) - z1)) /
              (Real.sqrt (((x2 : ℝ) - x1) * ((x2 : ℝ) - x1) +
                  ((z2 : ℝ) - z1) * ((z2 : ℝ) - z1)) *
                Real.sqrt (((x2 : ℝ) - x1) * ((x2 : ℝ) - x1) +
                  ((z2 : ℝ) - z1) * ((z2 : ℝ) - z1))))) := by
      rw [div_eq_mul_one_div, mul_assoc, hclamp]
    have htz : ((z2 : ℝ) - z1) /
          Real.sqrt (((x2 : ℝ) - x1) * ((x2 : ℝ) - x1) +
            ((z2 : ℝ) - z1) * ((z2 : ℝ) - z1)) *
        max 0 (min (Real.sqrt (((x2 : ℝ) - x1) * ((x2 : ℝ) - x1) +
            ((z2 : ℝ) - z1) * ((z2 : ℝ) - z1)))
          ((((cx : ℝ) - x1) * ((x2 : ℝ) - x1) + ((cz : ℝ) - z1) * ((z2 : ℝ) - z1)) /
            Real.sqrt (((x2 : ℝ) - x1) * ((x2 : ℝ) - x1) +
              ((z2 : ℝ) - z1) * ((z2 : ℝ) - z1)))) =
        ((z2 : ℝ) - z1) *
          max 0 (min 1
            ((((cx : ℝ) - x1) * ((x2 : ℝ) - x1) + ((cz : ℝ) - z1) * ((z2 : ℝ) - z1)) /
              (Real.sqrt (((x2 : ℝ) - x1) * ((x2 : ℝ) - x1) +
                  ((z2 : ℝ) - z1) * ((z2 : ℝ) - z1)) *
                Real.sqrt (((x2 : ℝ) - x1) * ((x2 : ℝ) - x1) +
                  ((z2 : ℝ) - z1) * ((z2 : ℝ) - z1))))) := by
      rw [div_eq_mul_one_div, mul_assoc, hclamp]
    rw [htx, htz, hL2]
    have hs : ((max 0 (min 1 (((cx - x1) * (x2 - x1) + (cz - z1) * (z2 - z1)) /
          ((x2 - x1) * (x2 - x1) + (z2 - z1) * (z2 - z1)))) : ℚ) : ℝ) =
        max 0 (min 1
          ((((cx : ℝ) - x1) * ((x2 : ℝ) - x1) + ((cz : ℝ) - z1) * ((z2 : ℝ) - z1)) /
            (((x2 : ℝ) - x1) * ((x2 : ℝ) - x1) + ((z2 : ℝ) - z1) * ((z2 : ℝ) - z1)))) := by
      push_cast
      ring_nf
    rw [← hs, decide_eq_true_iff, Real.sqrt_lt' hrR, pow_two]
    constructor
    · intro h
      exact_mod_cast h
    · intro h
      exact_mod_cast h

/-- Comparing a real square root against a positive bound equals the
squared comparison: justifies the strict branch conditions embedded as
squares (the 0.1 snap distance of updatePlayerMovement, the 0.001
degeneracy threshold and the radius test of the swept check). -/
theorem sqrt_lt_bound_iff (a c : ℝ) (hc : 0 < c) :
    Real.sqrt a < c ↔ a < c * c := by
  rw [Real.sqrt_lt' hc, pow_two]

/-- Non-strict variant, justifying the snap-to-target comparison of
updatePlayerMovement against the non-negative step length. -/
theorem sqrt_le_bound_iff (a c : ℝ) (hc : 0 ≤ c) :
    Real.sqrt a ≤ c ↔ a ≤ c * c := by
  rw [Real.sqrt_le_left hc, pow_two]
